import Mathlib

/-!
# Verification of `dataset_generation::ExtractPointCloudObjects`

Shallow embedding of
`ros_ws/src/dataset_generation/include/dataset_generation/extract_point_cloud_objects.h`.

Modelling conventions

* `std::string` is `String`; one `Char` stands for one `char` (file names and
  labels are taken to be ASCII, so `size()` is `String.length`).
* `std::size_t` is a natural number below `2 ^ 64`, `int` an integer kept in
  `[-2 ^ 31, 2 ^ 31)` by `wrap_int`.
* A `float` value is a rational number. The subtraction of the box translation
  from a point rounds as IEEE single precision does (`float_sub`); comparisons
  and the halving of the size are exact operations on `float`; the products and
  sums inside the rotations of Eigen and PCL are taken without rounding; the C
  math functions that Eigen and PCL call (`cos`, `sin`, `atan2`, `sqrt`) are a
  parameter `CMath`.
* `std::unordered_set` / `std::unordered_map` are lists without duplicate
  keys, read in iteration order; the order is not fixed by the source, so the
  theorems quantify over every order.
* A member function is a function from the object (and the files written so
  far) to an `Outcome`: normal return, a C++ exception that left the function,
  or undefined behaviour.
* `extract_objects_from_pcd` is declared `bool` and has no `return` statement:
  a call that completes its loop flows off the end of the function, which is
  undefined behaviour, and is modelled as such.
-/

namespace dataset_generation

/-! ## Machine integers and strings -/

/-- Subtraction of two `std::size_t` values: 64-bit unsigned, wraps around. -/
def size_t_sub (a b : Nat) : Nat := (a + 2 ^ 64 - b % 2 ^ 64) % 2 ^ 64

/-- Value of an `int` after an arithmetic result `x` is stored (two's complement, 32 bit). -/
def wrap_int (x : Int) : Int := (x + 2 ^ 31) % 2 ^ 32 - 2 ^ 31

/-- Model of `std::string::substr(pos, count)` for `pos ≤ size()`: the characters from `pos`
on, at most `count` of them. -/
def substr (s : String) (pos count : Nat) : String :=
  String.mk ((s.data.drop pos).take count)

/-- Exceptions that can leave the code: those of the JSON library (`nlohmann::json`),
identified as the library does by kind and number. -/
inductive Exn where
  | type_error (id : Nat)
  | parse_error (id : Nat)
  deriving DecidableEq, Repr

/-- How a call ends. `returned s`: normal return with state `s`; `threw e s`: exception `e`
left the function, the effects made before it are in `s`; `undefined_behaviour s`: the
execution reached, in state `s`, an operation whose behaviour C++ leaves undefined. -/
inductive Outcome (σ : Type) where
  | returned (s : σ)
  | threw (e : Exn) (s : σ)
  | undefined_behaviour (s : σ)
  deriving DecidableEq, Repr

/-! ## The object -/

/-- Data members of `class ExtractPointCloudObjects` (lines 39–49). -/
structure ExtractPointCloudObjects where
  in_folder_pcd_ : String
  in_folder_dets3d_ : String
  out_folder_pcd_ : String
  pcd_names_set_ : List String
  dets3d_names_set_ : List String
  common_fn_ : Int := 0
  not_common_fn_ : Int := 0
  labels_count_map_ : List (String × Int) := []
  deriving DecidableEq, Repr

/-- Detections file name derived from a point-cloud file name (lines 97 and 120):
`pcd_fn.substr(0, pcd_fn.size() - 3) + "json"`. -/
def dets3d_fn_of (pcd_fn : String) : String :=
  substr pcd_fn 0 (size_t_sub pcd_fn.length 3) ++ "json"

/-- The loop of the constructor (lines 94–110). The second argument is the chain of
elements from the loop iterator `it` up to `end()`.

When the detections file is missing, line 103 erases from `pcd_names_set_` the very element
`it` refers to. `std::unordered_set::erase` invalidates the iterators to the erased element,
and the loop header then evaluates `it++` on it: the behaviour from there on is undefined.
The state carried by `undefined_behaviour` is the one after line 104. -/
def ctor_loop (self : ExtractPointCloudObjects) : List String → Outcome ExtractPointCloudObjects
  | [] => .returned self
  | pcd_fn :: rest =>
    let dets3d_fn := dets3d_fn_of pcd_fn
    if dets3d_fn ∉ self.dets3d_names_set_ then
      .undefined_behaviour
        { self with
          pcd_names_set_ := self.pcd_names_set_.erase pcd_fn
          not_common_fn_ := wrap_int (self.not_common_fn_ + 1) }
    else
      ctor_loop { self with common_fn_ := wrap_int (self.common_fn_ + 1) } rest

/-- The constructor `ExtractPointCloudObjects::ExtractPointCloudObjects` (lines 81–112).
`P` and `D` are the contents of `pcd_names_set_` and
`dets3d_names_set_` after the two calls of `get_files_in_directory` (lines 90–91), that is
the listings of the two input directories. -/
def ExtractPointCloudObjects.ctor (in_folder_pcd in_folder_dets3d out_folder_pcd : String)
    (P D : List String) : Outcome ExtractPointCloudObjects :=
  ctor_loop
    { in_folder_pcd_ := in_folder_pcd
      in_folder_dets3d_ := in_folder_dets3d
      out_folder_pcd_ := out_folder_pcd
      pcd_names_set_ := P
      dets3d_names_set_ := D }
    P

/-- Number of frames present in exactly one of the two directories, as the specification
counts them: point-cloud files without their detections file, and detections files that no
point-cloud file derives. -/
def frames_in_exactly_one (P D : List String) : Nat :=
  (P.filter (fun f => decide (dets3d_fn_of f ∉ D))).length +
    (D.filter (fun d => decide (∀ f ∈ P, dets3d_fn_of f ≠ d))).length

/-! ## Scalars, vectors and matrices (Eigen)

Eigen is an external library: the operations below follow its sources (version 3.3), on
exact rationals. -/

/-- The `float` that an exact result `x` rounds to: IEEE 754 single precision (24-bit
significand, least exponent -126, subnormal numbers), round to nearest, ties to even.
Overflow is not treated apart: a result beyond the largest finite `float` stays beyond every
finite `float`. -/
def float_round (x : ℚ) : ℚ :=
  let e : Int := max (Int.log 2 |x|) (-126) - 23
  let q : ℚ := x / (2 : ℚ) ^ e
  let f : Int := ⌊q⌋
  let n : Int :=
    if q - f < 1 / 2 then f
    else if 1 / 2 < q - f then f + 1
    else if f % 2 = 0 then f else f + 1
  n * (2 : ℚ) ^ e

/-- The `float` subtraction `a - b`. -/
def float_sub (a b : ℚ) : ℚ := float_round (a - b)

/-- The C math functions called by Eigen and PCL, on idealised `float`s. `pi` is
`EIGEN_PI`. -/
structure CMath where
  cos : ℚ → ℚ
  sin : ℚ → ℚ
  atan2 : ℚ → ℚ → ℚ
  sqrt : ℚ → ℚ
  pi : ℚ

/-- Model of `Eigen::Vector3f`. -/
structure Vec3 where
  x : ℚ
  y : ℚ
  z : ℚ
  deriving DecidableEq

/-- Model of `Eigen::Vector4f`, components `[0]`, `[1]`, `[2]`, `[3]`. -/
structure Vec4 where
  x : ℚ
  y : ℚ
  z : ℚ
  w : ℚ
  deriving DecidableEq

/-- Model of `Eigen::Quaternionf`, in the argument order of its constructor `(w, x, y, z)`. -/
structure Quat where
  w : ℚ
  x : ℚ
  y : ℚ
  z : ℚ
  deriving DecidableEq

/-- Model of `Eigen::Matrix3f`, `mij` being `coeff(i, j)`. -/
structure Mat3 where
  m00 : ℚ
  m01 : ℚ
  m02 : ℚ
  m10 : ℚ
  m11 : ℚ
  m12 : ℚ
  m20 : ℚ
  m21 : ℚ
  m22 : ℚ
  deriving DecidableEq

/-- Model of `pcl::PointXYZ`. -/
structure PointXYZ where
  x : ℚ
  y : ℚ
  z : ℚ
  deriving DecidableEq

/-- Model of `Eigen::Vector3f::Zero()`. -/
def Vec3.Zero : Vec3 := ⟨0, 0, 0⟩

/-- Model of `Eigen::Matrix3f::Identity()`. -/
def Mat3.Identity : Mat3 := ⟨1, 0, 0, 0, 1, 0, 0, 0, 1⟩

/-- Matrix entry `coeff(i, j)`. -/
def Mat3.coeff (a : Mat3) (i j : Nat) : ℚ :=
  match i, j with
  | 0, 0 => a.m00
  | 0, 1 => a.m01
  | 0, 2 => a.m02
  | 1, 0 => a.m10
  | 1, 1 => a.m11
  | 1, 2 => a.m12
  | 2, 0 => a.m20
  | 2, 1 => a.m21
  | 2, 2 => a.m22
  | _, _ => 0

/-- Matrix–vector product. -/
def Mat3.mulVec (a : Mat3) (v : Vec3) : Vec3 :=
  ⟨a.m00 * v.x + a.m01 * v.y + a.m02 * v.z,
   a.m10 * v.x + a.m11 * v.y + a.m12 * v.z,
   a.m20 * v.x + a.m21 * v.y + a.m22 * v.z⟩

/-- Transposed matrix. -/
def Mat3.transpose (a : Mat3) : Mat3 :=
  ⟨a.m00, a.m10, a.m20, a.m01, a.m11, a.m21, a.m02, a.m12, a.m22⟩

/-- Determinant, expanded along the first column as Eigen's 3×3 inverse does. -/
def Mat3.det (a : Mat3) : ℚ :=
  (a.m11 * a.m22 - a.m12 * a.m21) * a.m00 +
    (a.m12 * a.m20 - a.m10 * a.m22) * a.m01 +
    (a.m10 * a.m21 - a.m11 * a.m20) * a.m02

/-- Model of `Eigen::Matrix3f::inverse()`: the cofactors times `1 / det`. (For `det = 0`,
where Eigen yields non-finite entries, the model yields the zero matrix.) -/
def Mat3.inverse (a : Mat3) : Mat3 :=
  let invdet := 1 / a.det
  ⟨(a.m11 * a.m22 - a.m12 * a.m21) * invdet,
   (a.m02 * a.m21 - a.m01 * a.m22) * invdet,
   (a.m01 * a.m12 - a.m02 * a.m11) * invdet,
   (a.m12 * a.m20 - a.m10 * a.m22) * invdet,
   (a.m00 * a.m22 - a.m02 * a.m20) * invdet,
   (a.m02 * a.m10 - a.m00 * a.m12) * invdet,
   (a.m10 * a.m21 - a.m11 * a.m20) * invdet,
   (a.m01 * a.m20 - a.m00 * a.m21) * invdet,
   (a.m00 * a.m11 - a.m01 * a.m10) * invdet⟩

/-- Model of `Eigen::Quaternionf::toRotationMatrix()`. -/
def Quat.toRotationMatrix (q : Quat) : Mat3 :=
  let tx := 2 * q.x
  let ty := 2 * q.y
  let tz := 2 * q.z
  let twx := tx * q.w
  let twy := ty * q.w
  let twz := tz * q.w
  let txx := tx * q.x
  let txy := ty * q.x
  let txz := tz * q.x
  let tyy := ty * q.y
  let tyz := tz * q.y
  let tzz := tz * q.z
  ⟨1 - (tyy + tzz), txy - twz, txz + twy,
   txy + twz, 1 - (txx + tzz), tyz - twx,
   txz - twy, tyz + twx, 1 - (txx + tyy)⟩

/-- Model of `Eigen::MatrixBase::eulerAngles(a0, a1, a2)` of Eigen 3.3 for three different
axes (`a0 ≠ a2`), the case the program uses with `(0, 1, 2)`. The angles returned are meant
to satisfy `R = Rx(res[0]) * Ry(res[1]) * Rz(res[2])` for the axes `(0, 1, 2)`. -/
def Mat3.eulerAngles (m : CMath) (a : Mat3) (a0 a1 _a2 : Nat) : Vec3 :=
  let odd : Nat := if (a0 + 1) % 3 = a1 then 0 else 1
  let i := a0
  let j := (a0 + 1 + odd) % 3
  let k := (a0 + 2 - odd) % 3
  let res0 := m.atan2 (a.coeff j k) (a.coeff k k)
  let c2 := m.sqrt (a.coeff i i * a.coeff i i + a.coeff i j * a.coeff i j)
  let flip : Bool := (odd ≠ 0 && decide (res0 < 0)) || (odd = 0 && decide (res0 > 0))
  let res0' := if flip then (if res0 > 0 then res0 - m.pi else res0 + m.pi) else res0
  let res1 := if flip then m.atan2 (-a.coeff i k) (-c2) else m.atan2 (-a.coeff i k) c2
  let s1 := m.sin res0'
  let c1 := m.cos res0'
  let res2 := m.atan2 (s1 * a.coeff k i - c1 * a.coeff j i) (c1 * a.coeff j j - s1 * a.coeff k j)
  if odd = 0 then ⟨-res0', -res1, -res2⟩ else ⟨res0', res1, res2⟩

/-- Model of `Eigen::Affine3f`: linear part and translation. -/
structure Affine3 where
  linear : Mat3
  translation : Vec3
  deriving DecidableEq

/-- Model of `Eigen::Affine3f::Identity()`. -/
def Affine3.Identity : Affine3 := ⟨Mat3.Identity, Vec3.Zero⟩

/-- Model of `Eigen::Affine3f::inverse()`: inverse linear part `L⁻¹`, translation `-(L⁻¹ t)`. -/
def Affine3.inverse (t : Affine3) : Affine3 :=
  let l := t.linear.inverse
  let v := l.mulVec t.translation
  ⟨l, ⟨-v.x, -v.y, -v.z⟩⟩

/-- Eigen's `isApprox(x, 1, prec)` on scalars. -/
def isApproxOne (x prec : ℚ) : Bool := decide (|x - 1| ≤ min |x| 1 * prec)

/-- Eigen's `isMuchSmallerThan(x, 1, prec)` on scalars. -/
def isMuchSmallerThanOne (x prec : ℚ) : Bool := decide (|x| ≤ 1 * prec)

/-- Model of `matrix().isIdentity()` on an affine transform, with `float`'s default precision
`1e-5`: diagonal entries approximately one, the others much smaller than one. -/
def Affine3.isIdentity (t : Affine3) : Bool :=
  let prec : ℚ := 1 / 100000
  let l := t.linear
  isApproxOne l.m00 prec && isApproxOne l.m11 prec && isApproxOne l.m22 prec &&
  isMuchSmallerThanOne l.m01 prec && isMuchSmallerThanOne l.m02 prec &&
  isMuchSmallerThanOne l.m10 prec && isMuchSmallerThanOne l.m12 prec &&
  isMuchSmallerThanOne l.m20 prec && isMuchSmallerThanOne l.m21 prec &&
  isMuchSmallerThanOne t.translation.x prec && isMuchSmallerThanOne t.translation.y prec &&
  isMuchSmallerThanOne t.translation.z prec

/-! ## The crop box (PCL)

PCL is an external library: the operations below follow `pcl::CropBox<PointT>::applyFilter`
and `pcl::getTransformation` of its sources (versions 1.8 to 1.14). -/

/-- Model of `pcl::getTransformation(x, y, z, roll, pitch, yaw, t)`: the linear part is
`Rz(yaw) * Ry(pitch) * Rx(roll)`. -/
def getTransformation (m : CMath) (x y z roll pitch yaw : ℚ) : Affine3 :=
  let A := m.cos yaw
  let B := m.sin yaw
  let C := m.cos pitch
  let D := m.sin pitch
  let E := m.cos roll
  let F := m.sin roll
  let DE := D * E
  let DF := D * F
  ⟨⟨A * C, A * DF - B * E, B * F + A * DE,
    B * C, A * E + B * DF, B * DE - A * F,
    -D, C * F, C * E⟩, ⟨x, y, z⟩⟩

/-- Model of `pcl::transformPoint(point, transform)`. -/
def transformPoint (p : PointXYZ) (t : Affine3) : PointXYZ :=
  let v := t.linear.mulVec ⟨p.x, p.y, p.z⟩
  ⟨v.x + t.translation.x, v.y + t.translation.y, v.z + t.translation.z⟩

/-- The parameters of a `pcl::CropBox<pcl::PointXYZ>` that the program sets; its
`transform_` keeps the default, the identity. -/
structure CropBox where
  min_pt_ : Vec4
  max_pt_ : Vec4
  rotation_ : Vec3
  translation_ : Vec3
  transform_ : Affine3 := Affine3.Identity
  deriving DecidableEq

/-- The transform that `CropBox::applyFilter` applies last: the inverse of the rotation
built from `rotation_`, or the identity when `rotation_` is zero. -/
def CropBox.inverse_transform (m : CMath) (cb : CropBox) : Affine3 :=
  if cb.rotation_ ≠ Vec3.Zero then
    (getTransformation m 0 0 0 cb.rotation_.x cb.rotation_.y cb.rotation_.z).inverse
  else Affine3.Identity

/-- The point that `CropBox::applyFilter` compares with the bounds (`local_pt`): the
input point moved by `transform_`, then by minus `translation_` (`local_pt.x -=
translation_ (0)` and so on, `float` subtractions), then by the inverse rotation, each step
skipped when its transform is the identity. -/
def CropBox.local_pt (m : CMath) (cb : CropBox) (p : PointXYZ) : PointXYZ :=
  let inverse_transform := cb.inverse_transform m
  let p1 := if !cb.transform_.isIdentity then transformPoint p cb.transform_ else p
  let p2 : PointXYZ :=
    if !(cb.translation_ = Vec3.Zero) then
      ⟨float_sub p1.x cb.translation_.x, float_sub p1.y cb.translation_.y,
        float_sub p1.z cb.translation_.z⟩
    else p1
  if !inverse_transform.isIdentity then transformPoint p2 inverse_transform else p2

/-- The test of `CropBox::applyFilter`: the point is outside when a coordinate is below
the minimum or above the maximum. -/
def CropBox.outside (cb : CropBox) (l : PointXYZ) : Bool :=
  (decide (l.x < cb.min_pt_.x) || decide (l.y < cb.min_pt_.y) || decide (l.z < cb.min_pt_.z)) ||
  (decide (l.x > cb.max_pt_.x) || decide (l.y > cb.max_pt_.y) || decide (l.z > cb.max_pt_.z))

/-- Model of `crop_box.filter(out_cloud)`: the points of the input cloud that are not
outside, in their order. -/
def CropBox.filter (m : CMath) (cb : CropBox) (input : List PointXYZ) : List PointXYZ :=
  input.filter (fun p => !cb.outside (cb.local_pt m p))

/-! ## JSON values (`nlohmann::json`)

The header `dataset_generation/json.hpp` is the JSON library of N. Lohmann; the operations
below follow its documented behaviour for the accesses that the program makes. -/

/-- A JSON value. Numbers are exact rationals. -/
inductive Json where
  | null
  | bool (b : Bool)
  | num (q : ℚ)
  | str (s : String)
  | arr (items : List Json)
  | obj (members : List (String × Json))

/-- Value stored under `key` in the members of an object. -/
def Json.lookup (key : String) : List (String × Json) → Option Json
  | [] => none
  | (k, v) :: rest => if k = key then some v else Json.lookup key rest

/-- Non-const `operator[](key)`, as a read: an object gives the member, `null` when it has
none (the operator inserts it); `null` becomes an empty object first; any other value throws
`type_error` 305. -/
def Json.get (j : Json) (key : String) : Except Exn Json :=
  match j with
  | .null => .ok .null
  | .obj members => .ok ((Json.lookup key members).getD .null)
  | _ => .error (.type_error 305)

/-- Non-const `operator[](idx)`, as a read: an array gives the element, `null` beyond its
end (the operator fills the array up); `null` becomes an empty array first; any other value
throws `type_error` 305. -/
def Json.index (j : Json) (idx : Nat) : Except Exn Json :=
  match j with
  | .null => .ok .null
  | .arr items => .ok (items.getD idx .null)
  | _ => .error (.type_error 305)

/-- Model of `size()`: number of elements of an array or object, 0 for `null`, 1 otherwise. -/
def Json.size (j : Json) : Nat :=
  match j with
  | .null => 0
  | .arr items => items.length
  | .obj members => members.length
  | _ => 1

/-- Conversion to `float`: numbers (and booleans) convert, anything else throws
`type_error` 302. -/
def Json.to_float (j : Json) : Except Exn ℚ :=
  match j with
  | .num q => .ok q
  | .bool b => .ok (if b then 1 else 0)
  | _ => .error (.type_error 302)

/-- Conversion to `std::string`: only strings convert, anything else throws `type_error`
302. -/
def Json.to_string (j : Json) : Except Exn String :=
  match j with
  | .str s => .ok s
  | _ => .error (.type_error 302)

/-! ## Extraction -/

/-- A call `pcl::io::savePCDFileASCII(path, cloud)`: the output artifact. The writer is taken
to succeed; what PCL does on a write error (it throws) is not modelled. -/
structure PcdFile where
  path : String
  cloud : List PointXYZ
  deriving DecidableEq

/-- The object together with the artifacts written so far, oldest first. -/
structure World where
  self : ExtractPointCloudObjects
  saved : List PcdFile
  deriving DecidableEq

/-- Model of `labels_count_map_[label]++` (line 224): a label that is absent is first
inserted with count 0. -/
def labels_incr (label : String) : List (String × Int) → List (String × Int)
  | [] => [(label, wrap_int (0 + 1))]
  | (k, v) :: rest =>
    if k = label then (k, wrap_int (v + 1)) :: rest else (k, v) :: labels_incr label rest

/-- Count recorded for `label` in `labels_count_map_`, 0 when the label is absent. -/
def labels_count (label : String) : List (String × Int) → Int
  | [] => 0
  | (k, v) :: rest => if k = label then v else labels_count label rest

/-- Lines 161–201: the crop box configured for detection `i` of `dets3d`. -/
def read_crop_box (m : CMath) (dets3d : Json) (i : Nat) : Except Exn CropBox := do
  let bbox ← (← dets3d.index i).get "bbox"
  let bbox_pos ← (← bbox.get "position").get "position"
  let bbox_ori ← (← bbox.get "position").get "orientation"
  let bbox_size ← bbox.get "size"
  let translation : Vec3 :=
    ⟨← (← bbox_pos.get "x").to_float, ← (← bbox_pos.get "y").to_float,
     ← (← bbox_pos.get "z").to_float⟩
  let quarternion : Quat :=
    ⟨← (← bbox_ori.get "w").to_float, ← (← bbox_ori.get "x").to_float,
     ← (← bbox_ori.get "y").to_float, ← (← bbox_ori.get "z").to_float⟩
  let euler_angles := quarternion.toRotationMatrix.eulerAngles m 0 1 2
  let min_point : Vec4 :=
    ⟨-(← (← bbox_size.get "x").to_float) / 2, -(← (← bbox_size.get "y").to_float) / 2, 0, 0⟩
  let max_point : Vec4 :=
    ⟨(← (← bbox_size.get "x").to_float) / 2, (← (← bbox_size.get "y").to_float) / 2,
     ← (← bbox_size.get "z").to_float, 0⟩
  return { min_pt_ := min_point, max_pt_ := max_point,
           rotation_ := euler_angles, translation_ := translation }

/-- Line 207: the label of detection `i`. -/
def read_label (dets3d : Json) (i : Nat) : Except Exn String := do
  (← (← dets3d.index i).get "label").to_string

/-- Lines 209–211: name of the output file. -/
def out_pcd_name (label pcd_fn : String) (curr_det_idx : Int) : String :=
  label ++ "-" ++ substr pcd_fn 0 (size_t_sub pcd_fn.length 4) ++ "-" ++
    toString curr_det_idx ++ ".pcd"

/-- The loop of `extract_objects_from_pcd` (lines 158–225): `n` iterations are left,
starting with detection `i`. -/
def extract_loop (m : CMath) (in_cloud : List PointXYZ) (dets3d : Json) (pcd_fn : String) :
    Nat → Nat → Int → World → Outcome World
  | 0, _, _, w => .returned w
  | n + 1, i, curr_det_idx, w =>
    match read_crop_box m dets3d i with
    | .error e => .threw e w
    | .ok crop_box =>
      let out_cloud := crop_box.filter m in_cloud
      match read_label dets3d i with
      | .error e => .threw e w
      | .ok label =>
        let out_pcd_path := w.self.out_folder_pcd_ ++ "/" ++ out_pcd_name label pcd_fn curr_det_idx
        extract_loop m in_cloud dets3d pcd_fn n (i + 1) (wrap_int (curr_det_idx + 1))
          { self := { w.self with
                      labels_count_map_ := labels_incr label w.self.labels_count_map_ }
            saved := w.saved ++ [⟨out_pcd_path, out_cloud⟩] }

/-- Line 226: the closing brace of `extract_objects_from_pcd`, a function declared `bool`,
is reached after the loop without any `return` statement. Flowing off the end of such a
function is undefined behaviour. An exception that left the loop passes through. -/
def flow_off_end : Outcome World → Outcome World
  | .returned w => .undefined_behaviour w
  | stopped => stopped

/-- Model of `extract_objects_from_pcd` (lines 144–226). `in_cloud` is the cloud converted
from `in_cloud_blob`. The two reads `dets3d_json["detections"]` go through the const
`operator[]`: it throws `type_error` 305 on a value that is not an object and has undefined
behaviour on an object without the key. `num_dets3d` is the size converted to `int`.

The function is declared `bool` (lines 34, 144) and no `return` statement occurs in its body:
when the loop has ended, control flows off the end of the function (line 226), which is
undefined behaviour. The state carried by `undefined_behaviour` is then the one after the
loop. -/
def extract_objects_from_pcd (m : CMath) (w : World) (in_cloud : List PointXYZ)
    (dets3d_json : Json) (pcd_fn : String) : Outcome World :=
  match dets3d_json with
  | .obj members =>
    match Json.lookup "detections" members with
    | none => .undefined_behaviour w
    | some dets3d =>
      let num_dets3d : Int := wrap_int dets3d.size
      flow_off_end (extract_loop m in_cloud dets3d pcd_fn num_dets3d.toNat 0 1 w)
  | _ => .threw (.type_error 305) w

/-- The input files as the program reads them: the cloud that `loadPCDFile` and
`fromPCLPointCloud2` give for a path (lines 126–127, 149–150), and the result of parsing the
detections file at a path (lines 129–131), an exception when the parser throws. -/
structure InputFiles where
  loadPCDFile : String → List PointXYZ
  parse_json : String → Except Exn Json

/-- The first loop of `extract_objects_from_all_pcds` (lines 117–134) from the loop iterator
on. There is no `try` block: an exception of an iteration leaves the loop and the
function, and so does undefined behaviour inside the call of line 133. -/
def all_pcds_loop (m : CMath) (files : InputFiles) : List String → World → Outcome World
  | [], w => .returned w
  | pcd_fn :: rest, w =>
    let dets3d_fn := dets3d_fn_of pcd_fn
    let pcd_file_path := w.self.in_folder_pcd_ ++ "/" ++ pcd_fn
    let dets3d_file_path := w.self.in_folder_dets3d_ ++ "/" ++ dets3d_fn
    let in_cloud := files.loadPCDFile pcd_file_path
    match files.parse_json dets3d_file_path with
    | .error e => .threw e w
    | .ok dets3d_json =>
      match extract_objects_from_pcd m w in_cloud dets3d_json pcd_fn with
      | .returned w' => all_pcds_loop m files rest w'
      | stopped => stopped

/-- Model of `extract_objects_from_all_pcds` (lines 114–142), without the console output. -/
def extract_objects_from_all_pcds (m : CMath) (files : InputFiles) (w : World) : Outcome World :=
  all_pcds_loop m files w.self.pcd_names_set_ w

/-! ## Specification-side notions -/

/-- A detection of the data model: label, position, orientation, size. -/
structure Detection where
  label : String
  position : Vec3
  orientation : Quat
  size : Vec3
  deriving DecidableEq

/-- Specification-side reading of one element of the `"detections"` array: the detection it
holds when all required fields are present with the right types (a well-formed detection),
an exception otherwise. It follows the access paths of lines 161–198 and 207. -/
def Detection.parse (det : Json) : Except Exn Detection := do
  let bbox ← det.get "bbox"
  let bbox_pos ← (← bbox.get "position").get "position"
  let bbox_ori ← (← bbox.get "position").get "orientation"
  let bbox_size ← bbox.get "size"
  let position : Vec3 :=
    ⟨← (← bbox_pos.get "x").to_float, ← (← bbox_pos.get "y").to_float,
     ← (← bbox_pos.get "z").to_float⟩
  let orientation : Quat :=
    ⟨← (← bbox_ori.get "w").to_float, ← (← bbox_ori.get "x").to_float,
     ← (← bbox_ori.get "y").to_float, ← (← bbox_ori.get "z").to_float⟩
  let size : Vec3 :=
    ⟨← (← bbox_size.get "x").to_float, ← (← bbox_size.get "y").to_float,
     ← (← bbox_size.get "z").to_float⟩
  let label ← (← det.get "label").to_string
  return ⟨label, position, orientation, size⟩

/-- The crop box that lines 172–201 configure for a well-formed detection. -/
def crop_box_of (m : CMath) (d : Detection) : CropBox :=
  { min_pt_ := ⟨-d.size.x / 2, -d.size.y / 2, 0, 0⟩
    max_pt_ := ⟨d.size.x / 2, d.size.y / 2, d.size.z, 0⟩
    rotation_ := d.orientation.toRotationMatrix.eulerAngles m 0 1 2
    translation_ := d.position }

/-- The artifact written for a well-formed detection that has index `k` in its frame. -/
def artifact_of (m : CMath) (out_folder_pcd : String) (in_cloud : List PointXYZ)
    (pcd_fn : String) (d : Detection) (k : Int) : PcdFile :=
  ⟨out_folder_pcd ++ "/" ++ out_pcd_name d.label pcd_fn k, (crop_box_of m d).filter m in_cloud⟩

/-- The artifacts written for consecutive well-formed detections, the first with index `k`. -/
def artifacts_from (m : CMath) (out_folder_pcd : String) (in_cloud : List PointXYZ)
    (pcd_fn : String) : Int → List Detection → List PcdFile
  | _, [] => []
  | k, d :: ds =>
    artifact_of m out_folder_pcd in_cloud pcd_fn d k ::
      artifacts_from m out_folder_pcd in_cloud pcd_fn (k + 1) ds

/-- The label counts after one increment per detection, in detection order. -/
def labels_after (ds : List Detection) (counts : List (String × Int)) : List (String × Int) :=
  ds.foldl (fun c d => labels_incr d.label c) counts

/-- The artifact name as the specification words it: label, the frame's file name without
extension with its final character dropped, and the index. -/
def claimed_out_pcd_name (label stem : String) (k : Int) : String :=
  label ++ "-" ++ String.mk stem.data.dropLast ++ "-" ++ toString k ++ ".pcd"

/-- Specification-side: the detection record is a JSON object in which a required field is
absent: `label` or `bbox`, or `position` or `size` inside `bbox`, or `position` or
`orientation` inside `bbox.position`. -/
def missing_required_field (det : Json) : Bool :=
  match det with
  | .obj members =>
    match Json.lookup "label" members, Json.lookup "bbox" members with
    | none, _ => true
    | some _, none => true
    | some _, some (.obj bbox) =>
      match Json.lookup "position" bbox, Json.lookup "size" bbox with
      | none, _ => true
      | some _, none => true
      | some (.obj position), some _ =>
        (Json.lookup "position" position).isNone || (Json.lookup "orientation" position).isNone
      | some _, some _ => false
    | some _, some _ => false
  | _ => false

/-! ## Sample data -/

/-- JSON object with members `x`, `y`, `z`. -/
def xyz_json (v : Vec3) : Json :=
  .obj [("x", .num v.x), ("y", .num v.y), ("z", .num v.z)]

/-- JSON object with members `w`, `x`, `y`, `z`. -/
def quat_json (q : Quat) : Json :=
  .obj [("w", .num q.w), ("x", .num q.x), ("y", .num q.y), ("z", .num q.z)]

/-- The record of a detection in the layout of the detections files. -/
def detection_json (d : Detection) : Json :=
  .obj [("label", .str d.label),
        ("bbox", .obj [("position", .obj [("position", xyz_json d.position),
                                           ("orientation", quat_json d.orientation)]),
                       ("size", xyz_json d.size)])]

/-- The members of a detections file holding the given detections. -/
def detections_record (ds : List Detection) : List (String × Json) :=
  [("detections", .arr (ds.map detection_json))]

/-- A table of the math functions that is exact at the quarter turns, `355 / 226` standing
for π/2 and `355 / 113` for π; it serves to instantiate statements at concrete inputs and
says nothing about other arguments (where it gives 0). -/
def quarter_turn_math : CMath where
  pi := 355 / 113
  cos x := if x = 0 then 1 else if x = 355 / 113 ∨ x = -(355 / 113) then -1 else 0
  sin x := if x = 355 / 226 then 1 else if x = -(355 / 226) then -1 else 0
  atan2 y x :=
    if y = 0 then (if x < 0 then 355 / 113 else 0)
    else if x = 0 then (if 0 < y then 355 / 226 else -(355 / 226))
    else 0
  sqrt x := if x = 1 then 1 else 0

/-- An object right after construction on the single paired frame `frame1.pcd`, with
nothing written yet. -/
def sample_world : World :=
  { self := { in_folder_pcd_ := "pcd", in_folder_dets3d_ := "dets3d", out_folder_pcd_ := "out",
              pcd_names_set_ := ["frame1.pcd"], dets3d_names_set_ := ["frame1.json"],
              common_fn_ := 1 }
    saved := [] }

/-- The detection of the end-to-end scenario: a car at the origin, identity orientation,
size (2, 2, 2). -/
def sample_car : Detection :=
  { label := "car", position := ⟨0, 0, 0⟩, orientation := ⟨1, 0, 0, 0⟩, size := ⟨2, 2, 2⟩ }

/-- A second detection: a bus at (1, 0, 0), identity orientation, size (4, 2, 3). -/
def sample_bus : Detection :=
  { label := "bus", position := ⟨1, 0, 0⟩, orientation := ⟨1, 0, 0, 0⟩, size := ⟨4, 2, 3⟩ }

/-- A small cloud: three points inside the box of `sample_car` (two of them on its faces)
and three outside. -/
def sample_cloud : List PointXYZ :=
  [⟨0, 0, 0⟩, ⟨1, 1, 2⟩, ⟨0, 0, -1 / 1000⟩, ⟨3 / 2, 0, 1⟩, ⟨0, 0, 1⟩, ⟨0, -2, 1⟩]

/-- A detection whose orientation is not about a single axis: the unit quaternion
(w, x, y, z) = (1/2, 1/2, -1/2, 1/2), a quarter turn about x followed by a quarter turn about
the new z. -/
def sample_tilted : Detection :=
  { label := "car", position := ⟨0, 0, 0⟩, orientation := ⟨1 / 2, 1 / 2, -1 / 2, 1 / 2⟩,
    size := ⟨2, 2, 2⟩ }

/-- A detection record without `label`: only the box of `sample_car`. -/
def sample_no_label : Json :=
  .obj [("bbox", .obj [("position", .obj [("position", xyz_json sample_car.position),
                                           ("orientation", quat_json sample_car.orientation)]),
                       ("size", xyz_json sample_car.size)])]

/-- Input files of the end-to-end scenario: `frame1.json` holds `sample_car`, the point-cloud
file holds `sample_cloud`. -/
def scenario_files : InputFiles where
  loadPCDFile := fun _ => sample_cloud
  parse_json := fun path =>
    if path = "dets3d/frame1.json" then .ok (.obj (detections_record [sample_car]))
    else .error (.parse_error 101)

/-- Input files of a run over three frames: the detections of `frame1` hold a record without
label, those of `frame2` hold `sample_car`, those of `frame3` hold `sample_car` followed by a
record without label; every point-cloud file holds `sample_cloud`. -/
def sample_files : InputFiles where
  loadPCDFile := fun _ => sample_cloud
  parse_json := fun path =>
    if path = "dets3d/frame1.json" then .ok (.obj [("detections", .arr [sample_no_label])])
    else if path = "dets3d/frame2.json" then .ok (.obj (detections_record [sample_car]))
    else if path = "dets3d/frame3.json" then
      .ok (.obj [("detections", .arr [detection_json sample_car, sample_no_label])])
    else .error (.parse_error 101)

/-- World of a run whose frames to process are `names`, in iteration order. -/
def sample_run (names : List String) : World :=
  { self := { in_folder_pcd_ := "pcd", in_folder_dets3d_ := "dets3d", out_folder_pcd_ := "out",
              pcd_names_set_ := names
              dets3d_names_set_ := ["frame1.json", "frame2.json", "frame3.json"],
              common_fn_ := names.length }
    saved := [] }

/-! ## Auxiliary lemmas -/

theorem wrap_int_of_range (x : Int) (h1 : -2 ^ 31 ≤ x) (h2 : x < 2 ^ 31) : wrap_int x = x := by
  unfold wrap_int
  norm_num at h1 h2 ⊢
  omega

theorem read_of_parse (m : CMath) (dets : List Json) (i : Nat) (det : Json) (d : Detection)
    (hi : dets[i]? = some det) (hd : Detection.parse det = .ok d) :
    read_crop_box m (.arr dets) i = .ok (crop_box_of m d) ∧
      read_label (.arr dets) i = .ok d.label := by
  have hidx : (Json.arr dets).index i = .ok det := by
    simp [Json.index, List.getD, hi]
  simp only [Detection.parse, bind, Except.bind, pure, Except.pure] at hd
  simp only [read_crop_box, read_label, hidx, bind, Except.bind, pure, Except.pure]
  repeat' split at hd
  all_goals try contradiction
  all_goals (cases hd; simp_all [crop_box_of])

theorem parse_of_read (m : CMath) (dets : List Json) (i : Nat) (det : Json) (box : CropBox)
    (label : String) (hi : dets[i]? = some det)
    (hbox : read_crop_box m (.arr dets) i = .ok box) (hlabel : read_label (.arr dets) i = .ok label) :
    ∃ d, Detection.parse det = .ok d ∧ box = crop_box_of m d ∧ label = d.label := by
  have hidx : (Json.arr dets).index i = .ok det := by
    simp [Json.index, List.getD, hi]
  simp only [read_crop_box, read_label, hidx, bind, Except.bind, pure, Except.pure] at hbox hlabel
  simp only [Detection.parse, bind, Except.bind, pure, Except.pure]
  repeat' split at hbox
  all_goals try contradiction
  all_goals repeat' split at hlabel
  all_goals try contradiction
  all_goals (cases hbox; simp_all [crop_box_of])

theorem well_formed_length (dets : List Json) (ds : List Detection)
    (hwf : dets.map Detection.parse = ds.map Except.ok) : ds.length = dets.length := by
  have := congrArg List.length hwf
  simpa using this.symm

theorem well_formed_get (dets : List Json) (ds : List Detection)
    (hwf : dets.map Detection.parse = ds.map Except.ok) (i : Nat) (hi : i < dets.length) :
    ∃ det d, dets[i]? = some det ∧ ds[i]? = some d ∧ Detection.parse det = .ok d := by
  have hlen := well_formed_length dets ds hwf
  have hi' : i < ds.length := by omega
  refine ⟨dets[i], ds[i], by simp [hi], by simp [hi'], ?_⟩
  have h := congrArg (fun l => l[i]?) hwf
  simp [hi, hi'] at h
  exact h

/-- On a frame whose detections are all well-formed the loop runs to its end: it writes one
artifact per remaining detection and counts the label of each. -/
theorem extract_loop_well_formed (m : CMath) (in_cloud : List PointXYZ) (dets : List Json)
    (pcd_fn : String) (ds : List Detection)
    (hwf : dets.map Detection.parse = ds.map Except.ok) (hN : dets.length + 1 < 2 ^ 31) :
    ∀ (n i : Nat) (w : World), i + n = dets.length →
      extract_loop m in_cloud (.arr dets) pcd_fn n i ((i : Int) + 1) w =
        .returned
          { self := { w.self with
                      labels_count_map_ := labels_after (ds.drop i) w.self.labels_count_map_ }
            saved := w.saved ++
              artifacts_from m w.self.out_folder_pcd_ in_cloud pcd_fn ((i : Int) + 1) (ds.drop i) } := by
  have hlen := well_formed_length dets ds hwf
  intro n
  induction n with
  | zero =>
    intro i w hi
    have : ds.drop i = [] := List.drop_eq_nil_of_le (by omega)
    simp [extract_loop, this, labels_after, artifacts_from]
  | succ n ih =>
    intro i w hi
    obtain ⟨det, d, hdet, hd, hparse⟩ := well_formed_get dets ds hwf i (by omega)
    obtain ⟨hbox, hlabel⟩ := read_of_parse m dets i det d hdet hparse
    have hdrop : ds.drop i = d :: ds.drop (i + 1) := by
      have hi' : i < ds.length := by omega
      rw [List.drop_eq_getElem_cons hi']
      simp [List.getElem?_eq_getElem hi'] at hd
      rw [hd]
    have hwrap : wrap_int ((i : Int) + 1 + 1) = ((i + 1 : Nat) : Int) + 1 := by
      rw [wrap_int_of_range]
      · push_cast; ring
      · have : (0 : Int) ≤ i := Int.ofNat_nonneg i
        norm_num; omega
      · have h1 : (i : Int) + 1 + 1 ≤ dets.length + 1 := by omega
        have h2 : ((dets.length : Int) + 1) < 2 ^ 31 := by exact_mod_cast hN
        omega
    rw [extract_loop]
    simp only [hbox, hlabel, hwrap]
    rw [ih (i + 1) _ (by omega)]
    simp [hdrop, labels_after, artifacts_from, artifact_of, List.append_assoc]

/-- A frame whose detections are all well-formed: the call writes one artifact per detection
with indices from 1, counts each label, and then flows off the end of the function. -/
theorem extract_objects_from_pcd_well_formed (m : CMath) (w : World) (in_cloud : List PointXYZ)
    (members : List (String × Json)) (dets : List Json) (ds : List Detection) (pcd_fn : String)
    (hkey : Json.lookup "detections" members = some (.arr dets))
    (hwf : dets.map Detection.parse = ds.map Except.ok) (hN : dets.length + 1 < 2 ^ 31) :
    extract_objects_from_pcd m w in_cloud (.obj members) pcd_fn =
      .undefined_behaviour
        { self := { w.self with
                    labels_count_map_ := labels_after ds w.self.labels_count_map_ }
          saved := w.saved ++ artifacts_from m w.self.out_folder_pcd_ in_cloud pcd_fn 1 ds } := by
  have hnum : (wrap_int ((Json.arr dets).size : Int)).toNat = dets.length := by
    have h2 : ((dets.length : Int) + 1) < 2 ^ 31 := by exact_mod_cast hN
    have h0 : (0 : Int) ≤ dets.length := Int.ofNat_nonneg _
    rw [Json.size, wrap_int_of_range _ (by norm_num; omega) (by omega)]
    simp
  have h := extract_loop_well_formed m in_cloud dets pcd_fn ds hwf hN dets.length 0 w (by simp)
  rw [Nat.cast_zero, zero_add, List.drop_zero] at h
  simp only [extract_objects_from_pcd, hkey, hnum]
  rw [h]
  rfl

theorem artifacts_from_length (m : CMath) (o : String) (c : List PointXYZ) (f : String)
    (ds : List Detection) : ∀ k : Int, (artifacts_from m o c f k ds).length = ds.length := by
  induction ds with
  | nil => intro k; rfl
  | cons d ds ih => intro k; simp [artifacts_from, ih]

theorem artifacts_from_get (m : CMath) (o : String) (c : List PointXYZ) (f : String)
    (ds : List Detection) : ∀ (k : Int) (i : Nat) (d : Detection), ds[i]? = some d →
      (artifacts_from m o c f k ds)[i]? = some (artifact_of m o c f d (k + i)) := by
  induction ds with
  | nil => intro k i d h; simp at h
  | cons d0 ds ih =>
    intro k i d h
    cases i with
    | zero =>
      simp at h
      simp [artifacts_from, h]
    | succ i =>
      simp at h
      simp only [artifacts_from, List.getElem?_cons_succ]
      rw [ih (k + 1) i d h]
      congr 2
      push_cast
      ring

theorem size_t_sub_of_le (a b : Nat) (hb : b ≤ a) (ha : a < 2 ^ 64) : size_t_sub a b = a - b := by
  unfold size_t_sub
  norm_num at ha ⊢
  omega

theorem substr_strip_pcd (stem : String) (h : (stem ++ ".pcd").length < 2 ^ 64) :
    substr (stem ++ ".pcd") 0 (size_t_sub (stem ++ ".pcd").length 4) = stem := by
  have hl : (stem ++ ".pcd").length = stem.length + 4 := by
    rw [String.length_append]; rfl
  rw [size_t_sub_of_le _ _ (by omega) h, hl]
  simp only [substr, List.drop_zero, String.data_append, Nat.add_sub_cancel]
  have : stem.length = stem.data.length := rfl
  rw [this, List.take_left]

theorem substr_swap_ext (stem : String) (h : (stem ++ ".pcd").length < 2 ^ 64) :
    dets3d_fn_of (stem ++ ".pcd") = stem ++ ".json" := by
  have hl : (stem ++ ".pcd").length = stem.length + 4 := by
    rw [String.length_append]; rfl
  unfold dets3d_fn_of
  rw [size_t_sub_of_le _ _ (by omega) h, hl]
  simp only [substr, List.drop_zero, String.data_append]
  apply String.ext
  have h1 : stem.length + 4 - 3 = stem.data.length + 1 := by
    have : stem.length = stem.data.length := rfl
    omega
  have h2 : (".pcd" : String).data = ['.', 'p', 'c', 'd'] := rfl
  have h3 : ("json" : String).data = ['j', 's', 'o', 'n'] := rfl
  have h4 : (".json" : String).data = ['.', 'j', 's', 'o', 'n'] := rfl
  have h5 : stem.length = stem.data.length := rfl
  simp only [String.data_append, h2, h3, h4, h1]
  rw [List.take_append_eq_append_take, List.take_of_length_le (by omega)]
  simp

theorem parse_detection_json (d : Detection) : Detection.parse (detection_json d) = .ok d := by
  rfl

theorem parse_detection_json_map (ds : List Detection) :
    (ds.map detection_json).map Detection.parse = ds.map Except.ok := by
  induction ds with
  | nil => rfl
  | cons d ds ih => simp [parse_detection_json]

theorem labels_count_incr_same (label : String) (counts : List (String × Int))
    (h : ∀ e ∈ counts, -2 ^ 31 ≤ e.2 ∧ e.2 + 1 < 2 ^ 31) :
    labels_count label (labels_incr label counts) = labels_count label counts + 1 := by
  induction counts with
  | nil => simp [labels_incr, labels_count, wrap_int]
  | cons e rest ih =>
    obtain ⟨k, v⟩ := e
    by_cases hk : k = label
    · have hv := h (k, v) (by simp)
      simp [labels_incr, labels_count, hk, wrap_int_of_range (v + 1) (by omega) hv.2]
    · simp [labels_incr, labels_count, hk]
      exact ih (fun e he => h e (by simp [he]))

theorem labels_count_incr_other (label other : String) (counts : List (String × Int))
    (hne : other ≠ label) :
    labels_count other (labels_incr label counts) = labels_count other counts := by
  induction counts with
  | nil => simp [labels_incr, labels_count, Ne.symm hne]
  | cons e rest ih =>
    obtain ⟨k, v⟩ := e
    by_cases hk : k = label
    · subst hk
      simp [labels_incr, labels_count, Ne.symm hne]
    · by_cases hk2 : k = other
      · subst hk2
        simp [labels_incr, labels_count, hk]
      · simp [labels_incr, labels_count, hk, hk2, ih]

theorem labels_sum_incr (label : String) (counts : List (String × Int))
    (h : ∀ e ∈ counts, -2 ^ 31 ≤ e.2 ∧ e.2 + 1 < 2 ^ 31) :
    ((labels_incr label counts).map Prod.snd).sum = (counts.map Prod.snd).sum + 1 := by
  induction counts with
  | nil => simp [labels_incr, wrap_int]
  | cons e rest ih =>
    obtain ⟨k, v⟩ := e
    by_cases hk : k = label
    · have hv := h (k, v) (by simp)
      simp [labels_incr, hk, wrap_int_of_range (v + 1) (by omega) hv.2]
      ring
    · simp [labels_incr, hk, ih (fun e he => h e (by simp [he]))]
      ring

theorem labels_incr_range (label : String) (counts : List (String × Int)) (n : Nat)
    (hn : n + 1 < 2 ^ 31)
    (h : ∀ e ∈ counts, -2 ^ 31 ≤ e.2 ∧ e.2 + ((n + 1 : Nat) : Int) < 2 ^ 31) :
    ∀ e ∈ labels_incr label counts, -2 ^ 31 ≤ e.2 ∧ e.2 + (n : Int) < 2 ^ 31 := by
  have hn' : ((n : Int) + 1) < 2 ^ 31 := by exact_mod_cast hn
  induction counts with
  | nil =>
    intro e he
    simp [labels_incr, wrap_int] at he
    subst he
    simp
    omega
  | cons e0 rest ih =>
    obtain ⟨k, v⟩ := e0
    have hv := h (k, v) (by simp)
    have hrest : ∀ e ∈ rest, -2 ^ 31 ≤ e.2 ∧ e.2 + ((n + 1 : Nat) : Int) < 2 ^ 31 :=
      fun e he => h e (by simp [he])
    push_cast at hv hrest
    intro e he
    by_cases hk : k = label
    · simp [labels_incr, hk] at he
      rcases he with he | he
      · subst he
        simp only
        rw [wrap_int_of_range (v + 1) (by omega) (by omega)]
        omega
      · have := hrest e he
        omega
    · simp [labels_incr, hk] at he
      rcases he with he | he
      · subst he
        simp only
        omega
      · exact ih (by push_cast; exact hrest) e he

/-- Counting the labels of a list of detections, without overflow of the `int` counts:
every count grows by the number of detections with that label, and the sum of all counts
by the number of detections. -/
theorem labels_after_spec (ds : List Detection) :
    ∀ counts : List (String × Int), ds.length < 2 ^ 31 →
      (∀ e ∈ counts, -2 ^ 31 ≤ e.2 ∧ e.2 + (ds.length : Int) < 2 ^ 31) →
      (∀ L, labels_count L (labels_after ds counts) =
          labels_count L counts + ((ds.filter (fun d => d.label = L)).length : Int)) ∧
        ((labels_after ds counts).map Prod.snd).sum =
          (counts.map Prod.snd).sum + (ds.length : Int) := by
  induction ds with
  | nil => intro counts _ _; simp [labels_after]
  | cons d ds ih =>
    intro counts hlen h
    have hlen' : ds.length + 1 < 2 ^ 31 := by simpa using hlen
    have h1 : ∀ e ∈ counts, -2 ^ 31 ≤ e.2 ∧ e.2 + 1 < 2 ^ 31 := by
      intro e he
      have := h e he
      simp only [List.length_cons] at this
      push_cast at this
      omega
    have hr := labels_incr_range d.label counts ds.length hlen' (by simpa using h)
    obtain ⟨ihc, ihs⟩ := ih (labels_incr d.label counts) (by omega) hr
    have hstep : labels_after (d :: ds) counts = labels_after ds (labels_incr d.label counts) := rfl
    refine ⟨?_, ?_⟩
    · intro L
      rw [hstep, ihc L]
      by_cases hL : d.label = L
      · subst hL
        rw [labels_count_incr_same _ _ h1]
        simp [List.filter_cons]
        ring
      · rw [labels_count_incr_other _ _ _ (Ne.symm hL)]
        simp [List.filter_cons, hL]
    · rw [hstep, ihs, labels_sum_incr _ _ h1]
      simp only [List.length_cons]
      push_cast
      ring

theorem identity_isIdentity : Affine3.Identity.isIdentity = true := by
  simp [Affine3.isIdentity, Affine3.Identity, Mat3.Identity, Vec3.Zero, isApproxOne,
    isMuchSmallerThanOne]

theorem eulerAngles_identity (m : CMath) (hatan : m.atan2 0 1 = 0) (hsqrt : m.sqrt 1 = 1)
    (hcos : m.cos 0 = 1) :
    (Quat.mk 1 0 0 0).toRotationMatrix.eulerAngles m 0 1 2 = Vec3.Zero := by
  simp [Quat.toRotationMatrix, Mat3.eulerAngles, Mat3.coeff, hatan, hsqrt, hcos, Vec3.Zero]

theorem outside_eq_false_iff (cb : CropBox) (l : PointXYZ) :
    cb.outside l = false ↔
      cb.min_pt_.x ≤ l.x ∧ l.x ≤ cb.max_pt_.x ∧ cb.min_pt_.y ≤ l.y ∧ l.y ≤ cb.max_pt_.y ∧
        cb.min_pt_.z ≤ l.z ∧ l.z ≤ cb.max_pt_.z := by
  simp only [CropBox.outside, Bool.or_eq_false_iff, decide_eq_false_iff_not, not_lt, gt_iff_lt]
  tauto

theorem mem_filter_iff (m : CMath) (cb : CropBox) (input : List PointXYZ) (p : PointXYZ) :
    p ∈ cb.filter m input ↔ p ∈ input ∧ cb.outside (cb.local_pt m p) = false := by
  simp [CropBox.filter, List.mem_filter]

theorem transformPoint_identity (p : PointXYZ) : transformPoint p Affine3.Identity = p := by
  simp [transformPoint, Affine3.Identity, Mat3.Identity, Vec3.Zero, Mat3.mulVec]

theorem local_pt_crop_box_of (m : CMath) (d : Detection) (p : PointXYZ) :
    (crop_box_of m d).local_pt m p =
      if ((crop_box_of m d).inverse_transform m).isIdentity then
        (if d.position = Vec3.Zero then p
          else ⟨float_sub p.x d.position.x, float_sub p.y d.position.y,
            float_sub p.z d.position.z⟩)
      else
        transformPoint
          (if d.position = Vec3.Zero then p
            else ⟨float_sub p.x d.position.x, float_sub p.y d.position.y,
              float_sub p.z d.position.z⟩)
          ((crop_box_of m d).inverse_transform m) := by
  have hbox : (crop_box_of m d).translation_ = d.position := rfl
  have htr : (crop_box_of m d).transform_ = Affine3.Identity := rfl
  simp only [CropBox.local_pt, hbox, htr, identity_isIdentity]
  by_cases h0 : d.position = Vec3.Zero <;>
    by_cases hI : ((crop_box_of m d).inverse_transform m).isIdentity = true <;> simp [hI, h0]

theorem inverse_transform_identity_orientation (m : CMath) (hatan : m.atan2 0 1 = 0)
    (hsqrt : m.sqrt 1 = 1) (hcos : m.cos 0 = 1) (label : String) (p s : Vec3) :
    (crop_box_of m ⟨label, p, ⟨1, 0, 0, 0⟩, s⟩).inverse_transform m = Affine3.Identity := by
  simp [CropBox.inverse_transform, crop_box_of, eulerAngles_identity m hatan hsqrt hcos]

/-- Identity orientation, box at the origin: no subtraction and no rotation is applied, the
points are compared with the bounds as they are. -/
theorem filter_identity_at_origin (m : CMath) (hatan : m.atan2 0 1 = 0)
    (hsqrt : m.sqrt 1 = 1) (hcos : m.cos 0 = 1) (label : String) (s : Vec3)
    (in_cloud : List PointXYZ) :
    (crop_box_of m ⟨label, Vec3.Zero, ⟨1, 0, 0, 0⟩, s⟩).filter m in_cloud =
      in_cloud.filter (fun c => decide (-s.x / 2 ≤ c.x ∧ c.x ≤ s.x / 2 ∧
        -s.y / 2 ≤ c.y ∧ c.y ≤ s.y / 2 ∧ 0 ≤ c.z ∧ c.z ≤ s.z)) := by
  unfold CropBox.filter
  apply List.filter_congr
  intro c _
  rw [local_pt_crop_box_of, inverse_transform_identity_orientation m hatan hsqrt hcos]
  simp only [identity_isIdentity, if_true]
  rw [Bool.eq_iff_iff]
  simp only [Bool.not_eq_true', outside_eq_false_iff, decide_eq_true_eq]
  rfl

/-- The run stops in the first frame iterated when that frame is well-formed: its artifacts
are written and its labels counted, then the call of line 133 flows off the end of
`extract_objects_from_pcd`; no other frame is processed and the report of lines 136–141 is
not reached. -/
theorem run_first_frame_well_formed (m : CMath) (files : InputFiles) (w : World)
    (pcd_fn : String) (rest : List String) (members : List (String × Json)) (dets : List Json)
    (ds : List Detection) (hset : w.self.pcd_names_set_ = pcd_fn :: rest)
    (hjson : files.parse_json (w.self.in_folder_dets3d_ ++ "/" ++ dets3d_fn_of pcd_fn) =
      .ok (.obj members))
    (hkey : Json.lookup "detections" members = some (.arr dets))
    (hwf : dets.map Detection.parse = ds.map Except.ok) (hN : dets.length + 1 < 2 ^ 31) :
    extract_objects_from_all_pcds m files w =
      .undefined_behaviour
        { self := { w.self with
                    labels_count_map_ := labels_after ds w.self.labels_count_map_ }
          saved := w.saved ++
            artifacts_from m w.self.out_folder_pcd_
              (files.loadPCDFile (w.self.in_folder_pcd_ ++ "/" ++ pcd_fn)) pcd_fn 1 ds } := by
  rw [extract_objects_from_all_pcds, hset]
  simp only [all_pcds_loop, hjson,
    extract_objects_from_pcd_well_formed m w _ members dets ds pcd_fn hkey hwf hN]

/-- The end-to-end scenario evaluated: `frame1.pcd` with one car at the origin, identity
orientation and size (2, 2, 2). The file `out/car-frame1-1.pcd` is written with the three
points of the sample cloud that have x, y in [-1, 1] and z in [0, 2], and one car is counted;
the run then ends in the undefined behaviour at the end of `extract_objects_from_pcd`, before
the report. -/
theorem scenario_frame1 :
    extract_objects_from_all_pcds quarter_turn_math scenario_files sample_world =
      .undefined_behaviour
        { self := { sample_world.self with labels_count_map_ := [("car", 1)] }
          saved := [⟨"out/car-frame1-1.pcd", [⟨0, 0, 0⟩, ⟨1, 1, 2⟩, ⟨0, 0, 1⟩]⟩] } := by
  rw [run_first_frame_well_formed quarter_turn_math scenario_files sample_world "frame1.pcd" []
    (detections_record [sample_car]) ([sample_car].map detection_json) [sample_car] rfl rfl rfl
    (parse_detection_json_map _) (by simp)]
  have hf := filter_identity_at_origin quarter_turn_math (by simp [quarter_turn_math])
    (by simp [quarter_turn_math]) (by simp [quarter_turn_math]) "car" ⟨2, 2, 2⟩ sample_cloud
  have hname2 : "out" ++ "/" ++ out_pcd_name "car" "frame1.pcd" 1 = "out/car-frame1-1.pcd" := by
    decide
  have hl : labels_after [sample_car] [] = [("car", 1)] := by decide
  have hz : (⟨0, 0, 0⟩ : Vec3) = Vec3.Zero := rfl
  simp only [artifacts_from, artifact_of, sample_car, hz, hf, sample_world, List.nil_append,
    hname2, scenario_files]
  simp only [sample_cloud, List.filter]
  norm_num
  exact hl

theorem tilted_rotation_matrix :
    sample_tilted.orientation.toRotationMatrix = ⟨0, -1, 0, 0, 0, -1, 1, 0, 0⟩ := by
  simp only [sample_tilted, Quat.toRotationMatrix]
  norm_num

theorem tilted_euler_angles (m : CMath) (h : ℚ) (hpos : 0 < h)
    (h1 : ∀ y : ℚ, y < 0 → m.atan2 y 0 = -h) (h2 : m.atan2 0 1 = 0) (h3 : m.sqrt 1 = 1)
    (hs1 : m.sin (-h) < 0) :
    sample_tilted.orientation.toRotationMatrix.eulerAngles m 0 1 2 = ⟨h, 0, h⟩ := by
  rw [tilted_rotation_matrix]
  have hflip : ¬ (0 < -h) := by linarith
  have h1' : m.atan2 (-1) 0 = -h := h1 (-1) (by norm_num)
  simp [Mat3.eulerAngles, Mat3.coeff, h1', h2, h3, hflip, h1 _ hs1]

theorem tilted_crop_rotation (m : CMath) (h : ℚ) (hc0 : m.cos 0 = 1) (hs0 : m.sin 0 = 0) :
    getTransformation m 0 0 0 h 0 h =
      ⟨⟨m.cos h, -(m.sin h * m.cos h), m.sin h * m.sin h,
        m.sin h, m.cos h * m.cos h, -(m.cos h * m.sin h),
        0, m.sin h, m.cos h⟩, ⟨0, 0, 0⟩⟩ := by
  simp [getTransformation, hc0, hs0]

theorem tilted_local (s c : ℚ) (hs : 9 / 10 ≤ s) (hc : |c| ≤ 1 / 10) (x y : ℚ) :
    transformPoint ⟨x, y, 0⟩
      (Affine3.inverse ⟨⟨c, -(s * c), s * s, s, c * c, -(c * s), 0, s, c⟩, ⟨0, 0, 0⟩⟩) =
      ⟨(c * x + s * y) / (c * c + s * s),
       c * (c * y - s * x) / (c * c + s * s) ^ 2,
       s * (s * x - c * y) / (c * c + s * s) ^ 2⟩ := by
  have hc' := abs_le.1 hc
  have hpos : 0 < c * c + s * s := by nlinarith
  have hd2 : 0 < (c * c + s * s) ^ 2 := by positivity
  simp only [transformPoint, Affine3.inverse, Mat3.inverse, Mat3.det, Mat3.mulVec]
  have hdet : (c * c * c - -(c * s) * s) * c + (-(c * s) * 0 - s * c) * -(s * c) +
      (s * s - c * c * 0) * (s * s) = (c * c + s * s) ^ 2 := by ring
  rw [hdet]
  simp only [PointXYZ.mk.injEq]
  refine ⟨?_, ?_, ?_⟩ <;> (field_simp; ring)

theorem tilted_not_identity (s c : ℚ) (hs : 9 / 10 ≤ s) (hc : |c| ≤ 1 / 10) :
    (Affine3.inverse
      ⟨⟨c, -(s * c), s * s, s, c * c, -(c * s), 0, s, c⟩, ⟨0, 0, 0⟩⟩).isIdentity = false := by
  have hc' := abs_le.1 hc
  have hpos : 0 < c * c + s * s := by nlinarith
  have hd2 : 0 < (c * c + s * s) ^ 2 := by positivity
  have hm00 : (Affine3.inverse
      ⟨⟨c, -(s * c), s * s, s, c * c, -(c * s), 0, s, c⟩, ⟨0, 0, 0⟩⟩).linear.m00 =
      c / (c * c + s * s) := by
    simp only [Affine3.inverse, Mat3.inverse, Mat3.det]
    have hdet : (c * c * c - -(c * s) * s) * c + (-(c * s) * 0 - s * c) * -(s * c) +
        (s * s - c * c * 0) * (s * s) = (c * c + s * s) ^ 2 := by ring
    rw [hdet]
    field_simp
    ring
  have hx : c / (c * c + s * s) ≤ 1 / 2 := by
    rw [div_le_iff₀ hpos]
    nlinarith
  have hfalse : isApproxOne (c / (c * c + s * s)) (1 / 100000) = false := by
    simp only [isApproxOne, decide_eq_false_iff_not, not_le]
    have h1 : min |c / (c * c + s * s)| 1 * (1 / 100000) ≤ 1 / 100000 := by
      have := min_le_right |c / (c * c + s * s)| 1
      nlinarith
    have h2 : (1 : ℚ) / 2 ≤ |c / (c * c + s * s) - 1| := by
      rw [abs_of_nonpos (by linarith)]
      linarith
    linarith
  simp only [Affine3.isIdentity, hm00, hfalse, Bool.false_and]

theorem tilted_filter (m : CMath) (h : ℚ) (hpos : 0 < h)
    (h1 : ∀ y : ℚ, y < 0 → m.atan2 y 0 = -h) (h2 : m.atan2 0 1 = 0) (h3 : m.sqrt 1 = 1)
    (hs1 : m.sin (-h) < 0) (hs : 9 / 10 ≤ m.sin h) (hs' : m.sin h ≤ 11 / 10)
    (hc : |m.cos h| ≤ 1 / 10) (hc0 : m.cos 0 = 1) (hs0 : m.sin 0 = 0) :
    (crop_box_of m sample_tilted).filter m [⟨-1 / 2, -1 / 2, 0⟩, ⟨1 / 2, 1 / 2, 0⟩] =
      [⟨1 / 2, 1 / 2, 0⟩] := by
  have he := tilted_euler_angles m h hpos h1 h2 h3 hs1
  have hne : (⟨h, 0, h⟩ : Vec3) ≠ Vec3.Zero := by
    intro hz
    have : h = 0 := congrArg Vec3.x hz
    linarith
  have hinv : (crop_box_of m sample_tilted).inverse_transform m =
      Affine3.inverse ⟨⟨m.cos h, -(m.sin h * m.cos h), m.sin h * m.sin h,
        m.sin h, m.cos h * m.cos h, -(m.cos h * m.sin h),
        0, m.sin h, m.cos h⟩, ⟨0, 0, 0⟩⟩ := by
    simp only [CropBox.inverse_transform, crop_box_of, he, hne, ne_eq, not_false_eq_true,
      if_true, tilted_crop_rotation m h hc0 hs0]
  have hnotid := tilted_not_identity (m.sin h) (m.cos h) hs hc
  have hloc : ∀ x y : ℚ, (crop_box_of m sample_tilted).local_pt m ⟨x, y, 0⟩ =
      ⟨(m.cos h * x + m.sin h * y) / (m.cos h * m.cos h + m.sin h * m.sin h),
       m.cos h * (m.cos h * y - m.sin h * x) / (m.cos h * m.cos h + m.sin h * m.sin h) ^ 2,
       m.sin h * (m.sin h * x - m.cos h * y) /
         (m.cos h * m.cos h + m.sin h * m.sin h) ^ 2⟩ := by
    intro x y
    rw [← tilted_local (m.sin h) (m.cos h) hs hc x y, local_pt_crop_box_of, hinv, hnotid]
    simp [sample_tilted, Vec3.Zero]
  generalize m.sin h = s at hs hs' hloc
  generalize m.cos h = c at hc hloc
  have hc' := abs_le.1 hc
  have hD : 0 < c * c + s * s := by nlinarith
  have hD2 : 0 < (c * c + s * s) ^ 2 := by positivity
  have hDlo : 81 / 100 ≤ c * c + s * s := by nlinarith
  have hD2lo : 6561 / 10000 ≤ (c * c + s * s) ^ 2 := by nlinarith
  have hmin : (crop_box_of m sample_tilted).min_pt_ = ⟨-1, -1, 0, 0⟩ := by
    simp [crop_box_of, sample_tilted]
  have hmax : (crop_box_of m sample_tilted).max_pt_ = ⟨1, 1, 2, 0⟩ := by
    simp [crop_box_of, sample_tilted]
  have hout1 : (crop_box_of m sample_tilted).outside
      ((crop_box_of m sample_tilted).local_pt m ⟨-1 / 2, -1 / 2, 0⟩) = true := by
    rw [hloc]
    have hz : s * (s * (-1 / 2) - c * (-1 / 2)) / (c * c + s * s) ^ 2 < 0 := by
      apply div_neg_of_neg_of_pos _ hD2
      have hn := mul_pos (show (0 : ℚ) < s by linarith) (show (0 : ℚ) < s - c by linarith)
      linarith
    simp only [CropBox.outside, hmin, hz, decide_True, Bool.or_true, Bool.true_or]
  have hout2 : (crop_box_of m sample_tilted).outside
      ((crop_box_of m sample_tilted).local_pt m ⟨1 / 2, 1 / 2, 0⟩) = false := by
    rw [hloc]
    have hsc : 0 ≤ s - c := by linarith
    have hn1 := mul_nonneg (show (0 : ℚ) ≤ c + 1 / 10 by linarith) hsc
    have hn2 := mul_nonneg (show (0 : ℚ) ≤ 1 / 10 - c by linarith) hsc
    have hn3 := mul_nonneg (show (0 : ℚ) ≤ 11 / 10 - s by linarith) hsc
    have hn4 := mul_nonneg (show (0 : ℚ) ≤ s by linarith) hsc
    have hx1 : ¬ (c * (1 / 2) + s * (1 / 2)) / (c * c + s * s) < -1 := by
      rw [not_lt, le_div_iff₀ hD]
      linarith
    have hx2 : ¬ 1 < (c * (1 / 2) + s * (1 / 2)) / (c * c + s * s) := by
      rw [not_lt, div_le_iff₀ hD]
      linarith
    have hy1 : ¬ c * (c * (1 / 2) - s * (1 / 2)) / (c * c + s * s) ^ 2 < -1 := by
      rw [not_lt, le_div_iff₀ hD2]
      linarith
    have hy2 : ¬ 1 < c * (c * (1 / 2) - s * (1 / 2)) / (c * c + s * s) ^ 2 := by
      rw [not_lt, div_le_iff₀ hD2]
      linarith
    have hz1 : ¬ s * (s * (1 / 2) - c * (1 / 2)) / (c * c + s * s) ^ 2 < 0 := by
      rw [not_lt]
      apply div_nonneg _ hD2.le
      linarith
    have hz2 : ¬ 2 < s * (s * (1 / 2) - c * (1 / 2)) / (c * c + s * s) ^ 2 := by
      rw [not_lt, div_le_iff₀ hD2]
      linarith
    simp only [CropBox.outside, hmin, hmax, hx1, hx2, hy1, hy2, hz1, hz2, decide_False,
      Bool.or_false]
  simp only [CropBox.filter, List.filter, hout1, hout2, Bool.not_true, Bool.not_false]

/-- When the constructor's loop runs to its end, every file it visited has its detections
file, only `common_fn_` changed, and it grew by the number of files visited. -/
theorem ctor_loop_returned (it : List String) :
    ∀ (self st : ExtractPointCloudObjects), ctor_loop self it = .returned st →
      0 ≤ self.common_fn_ → self.common_fn_ + (it.length : Int) < 2 ^ 31 →
      (∀ f ∈ it, dets3d_fn_of f ∈ self.dets3d_names_set_) ∧
        st = { self with common_fn_ := self.common_fn_ + (it.length : Int) } := by
  induction it with
  | nil =>
    intro self st h _ _
    simp only [ctor_loop, Outcome.returned.injEq] at h
    simp [← h]
  | cons f rest ih =>
    intro self st h h0 hlt
    simp only [List.length_cons] at hlt
    push_cast at hlt
    have hrest0 : (0 : Int) ≤ rest.length := Int.ofNat_nonneg _
    by_cases hf : dets3d_fn_of f ∈ self.dets3d_names_set_
    · simp only [ctor_loop, hf, not_true_eq_false, if_false] at h
      have hw : wrap_int (self.common_fn_ + 1) = self.common_fn_ + 1 :=
        wrap_int_of_range _ (by norm_num; omega) (by omega)
      rw [hw] at h
      obtain ⟨hall, hst⟩ := ih _ st h (by simp only; omega) (by simp only; omega)
      refine ⟨?_, ?_⟩
      · intro g hg
        rcases List.mem_cons.1 hg with hg | hg
        · rw [hg]; exact hf
        · exact hall g hg
      · rw [hst]
        simp only [List.length_cons]
        push_cast
        congr 1
        ring
    · simp [ctor_loop, hf] at h

theorem ctor_loop_returns (it : List String) :
    ∀ self : ExtractPointCloudObjects, (∀ f ∈ it, dets3d_fn_of f ∈ self.dets3d_names_set_) →
      ∃ st, ctor_loop self it = .returned st := by
  induction it with
  | nil => intro self _; exact ⟨self, rfl⟩
  | cons f rest ih =>
    intro self hall
    have hf : dets3d_fn_of f ∈ self.dets3d_names_set_ := hall f (by simp)
    simp only [ctor_loop, hf, not_true_eq_false, if_false]
    exact ih _ (fun g hg => hall g (by simp [hg]))

/-- The constructor runs to its end exactly when every point-cloud file has its detections
file. -/
theorem ctor_returned_iff (a b c : String) (P D : List String) (hP : P.length < 2 ^ 31) :
    (∃ st, ExtractPointCloudObjects.ctor a b c P D = .returned st) ↔
      ∀ f ∈ P, dets3d_fn_of f ∈ D := by
  constructor
  · rintro ⟨st, h⟩
    have hP' : ((P.length : Int)) < 2 ^ 31 := by exact_mod_cast hP
    exact (ctor_loop_returned P _ st h (by simp) (by simpa using hP')).1
  · intro hall
    exact ctor_loop_returns P _ hall

theorem get_of_ne_null (j : Json) (k : String) (v : Json) (h : j.get k = .ok v)
    (hv : v ≠ .null) : ∃ ms, j = .obj ms ∧ Json.lookup k ms = some v := by
  cases j with
  | null => simp [Json.get] at h; exact absurd h.symm hv
  | obj ms =>
    refine ⟨ms, rfl, ?_⟩
    simp only [Json.get, Except.ok.injEq] at h
    cases hl : Json.lookup k ms with
    | none => rw [hl] at h; exact absurd h.symm hv
    | some u => rw [hl] at h; simp at h; rw [h]
  | bool b => simp [Json.get] at h
  | num q => simp [Json.get] at h
  | str s => simp [Json.get] at h
  | arr l => simp [Json.get] at h

theorem ne_null_of_to_float (v : Json) (q : ℚ) (h : v.to_float = .ok q) : v ≠ .null := by
  intro hv; rw [hv] at h; simp [Json.to_float] at h

theorem ne_null_of_to_string (v : Json) (s : String) (h : v.to_string = .ok s) : v ≠ .null := by
  intro hv; rw [hv] at h; simp [Json.to_string] at h

theorem obj_of_member_float (j : Json) (k : String) (v : Json) (q : ℚ) (h : j.get k = .ok v)
    (hq : v.to_float = .ok q) : ∃ ms, j = .obj ms := by
  obtain ⟨ms, hj, _⟩ := get_of_ne_null j k v h (ne_null_of_to_float v q hq)
  exact ⟨ms, hj⟩

theorem bind_eq_ok {α β : Type} (x : Except Exn α) (f : α → Except Exn β) (b : β) :
    (x >>= f) = .ok b ↔ ∃ a, x = .ok a ∧ f a = .ok b := by
  cases x with
  | error e => simp [bind, Except.bind]
  | ok a => simp [bind, Except.bind]

/-- A detection record in which a required field is absent is not well-formed. -/
theorem parse_error_of_missing (det : Json) (h : missing_required_field det = true) :
    ∀ d, Detection.parse det ≠ .ok d := by
  intro d hd
  simp only [Detection.parse, bind_eq_ok] at hd
  obtain ⟨bbox, hbbox, t1, ht1, bpos, hbpos, t2, ht2, bori, hbori, bsize, hbsize,
    vx, hvx, qx, hqx, _, _, _, _, _, _, _, _,
    vw, hvw, qw, hqw, _, _, _, _, _, _, _, _, _, _, _, _,
    sx, hsx, qsx, hqsx, _, _, _, _, _, _, _, _,
    vl, hvl, l, hl, _⟩ := hd
  obtain ⟨ms, hdet, hlabel⟩ := get_of_ne_null det "label" vl hvl (ne_null_of_to_string vl l hl)
  obtain ⟨ps0, hps0⟩ := obj_of_member_float bpos "x" vx qx hvx hqx
  obtain ⟨os0, hos0⟩ := obj_of_member_float bori "w" vw qw hvw hqw
  obtain ⟨ss0, hss0⟩ := obj_of_member_float bsize "x" sx qsx hsx hqsx
  obtain ⟨ps, ht1obj, hpos⟩ := get_of_ne_null t1 "position" bpos hbpos (by rw [hps0]; simp)
  obtain ⟨ps', ht2obj, hori⟩ := get_of_ne_null t2 "orientation" bori hbori (by rw [hos0]; simp)
  obtain ⟨bb, hbb, hposition⟩ := get_of_ne_null bbox "position" t1 ht1 (by rw [ht1obj]; simp)
  obtain ⟨bb', hbb', hsize⟩ := get_of_ne_null bbox "size" bsize hbsize (by rw [hss0]; simp)
  obtain ⟨ms', hdet', hbboxm⟩ := get_of_ne_null det "bbox" bbox hbbox (by rw [hbb]; simp)
  have ht12 : t2 = t1 := by
    rw [ht1] at ht2
    exact (Except.ok.inj ht2).symm
  subst hdet
  cases hdet'
  subst hbb
  cases hbb'
  subst ht12
  subst ht1obj
  cases ht2obj
  simp [missing_required_field, hlabel, hbboxm, hposition, hsize, hpos, hori] at h

theorem get_error (j : Json) (k : String) (e : Exn) (h : j.get k = .error e) :
    e = .type_error 305 := by
  cases j <;> simp [Json.get] at h <;> exact h.symm

theorem index_error (j : Json) (i : Nat) (e : Exn) (h : j.index i = .error e) :
    e = .type_error 305 := by
  cases j <;> simp [Json.index] at h <;> exact h.symm

theorem to_float_error (j : Json) (e : Exn) (h : j.to_float = .error e) :
    e = .type_error 302 := by
  cases j <;> simp [Json.to_float] at h <;> exact h.symm

theorem to_string_error (j : Json) (e : Exn) (h : j.to_string = .error e) :
    e = .type_error 302 := by
  cases j <;> simp [Json.to_string] at h <;> exact h.symm

/-- Reading a crop box can only fail with a `type_error` of the JSON library. -/
theorem read_crop_box_error (m : CMath) (dets3d : Json) (i : Nat) (e : Exn)
    (h : read_crop_box m dets3d i = .error e) : ∃ id, e = .type_error id := by
  simp only [read_crop_box, bind, Except.bind, pure, Except.pure] at h
  repeat' split at h
  all_goals try contradiction
  all_goals
    cases h
    first
    | exact ⟨305, get_error _ _ _ (by assumption)⟩
    | exact ⟨305, index_error _ _ _ (by assumption)⟩
    | exact ⟨302, to_float_error _ _ (by assumption)⟩

/-- Reading a label can only fail with a `type_error` of the JSON library. -/
theorem read_label_error (dets3d : Json) (i : Nat) (e : Exn)
    (h : read_label dets3d i = .error e) : ∃ id, e = .type_error id := by
  simp only [read_label, bind, Except.bind] at h
  repeat' split at h
  all_goals first
    | (cases h; first
        | exact ⟨305, get_error _ _ _ (by assumption)⟩
        | exact ⟨305, index_error _ _ _ (by assumption)⟩)
    | exact ⟨302, to_string_error _ _ h⟩

/-- A frame whose detections are well-formed up to a first malformed one: the loop writes
the artifacts of the well-formed ones and is then left by an exception. -/
theorem extract_loop_malformed (m : CMath) (in_cloud : List PointXYZ) (good : List Json)
    (det : Json) (rest : List Json) (pcd_fn : String) (ds : List Detection)
    (hgood : good.map Detection.parse = ds.map Except.ok)
    (hbad : ∀ d, Detection.parse det ≠ .ok d)
    (hN : (good ++ det :: rest).length + 1 < 2 ^ 31) :
    ∀ (j i n : Nat) (w : World), i + j = good.length →
      i + n = (good ++ det :: rest).length →
      ∃ id, extract_loop m in_cloud (.arr (good ++ det :: rest)) pcd_fn n i ((i : Int) + 1) w =
        .threw (.type_error id)
          { self := { w.self with
                      labels_count_map_ := labels_after (ds.drop i) w.self.labels_count_map_ }
            saved := w.saved ++
              artifacts_from m w.self.out_folder_pcd_ in_cloud pcd_fn ((i : Int) + 1)
                (ds.drop i) } := by
  have hlen := well_formed_length good ds hgood
  intro j
  induction j with
  | zero =>
    intro i n w hi hn
    have hi' : i = good.length := by omega
    have hdrop : ds.drop i = [] := List.drop_eq_nil_of_le (by omega)
    have hdet : (good ++ det :: rest)[i]? = some det := by
      rw [hi', List.getElem?_append_right (le_refl _)]; simp
    obtain ⟨n', rfl⟩ : ∃ n', n = n' + 1 := ⟨n - 1, by simp at hn; omega⟩
    rw [extract_loop, hdrop]
    cases hbox : read_crop_box m (.arr (good ++ det :: rest)) i with
    | error e =>
      obtain ⟨id, rfl⟩ := read_crop_box_error m _ i e hbox
      exact ⟨id, by simp [labels_after, artifacts_from]⟩
    | ok box =>
      cases hlabel : read_label (.arr (good ++ det :: rest)) i with
      | error e =>
        obtain ⟨id, rfl⟩ := read_label_error _ i e hlabel
        exact ⟨id, by simp [labels_after, artifacts_from]⟩
      | ok label =>
        obtain ⟨d, hd, _⟩ := parse_of_read m _ i det box label hdet hbox hlabel
        exact absurd hd (hbad d)
  | succ j ih =>
    intro i n w hi hn
    have hig : i < good.length := by omega
    obtain ⟨g, d, hg, hd, hparse⟩ := well_formed_get good ds hgood i hig
    have hdet : (good ++ det :: rest)[i]? = some g := by
      rw [List.getElem?_append_left hig]; exact hg
    obtain ⟨hbox, hlabel⟩ := read_of_parse m _ i g d hdet hparse
    have hdrop : ds.drop i = d :: ds.drop (i + 1) := by
      have hi' : i < ds.length := by omega
      rw [List.drop_eq_getElem_cons hi']
      simp [List.getElem?_eq_getElem hi'] at hd
      rw [hd]
    obtain ⟨n', rfl⟩ : ∃ n', n = n' + 1 := ⟨n - 1, by simp at hn; omega⟩
    have hwrap : wrap_int ((i : Int) + 1 + 1) = ((i + 1 : Nat) : Int) + 1 := by
      rw [wrap_int_of_range]
      · push_cast; ring
      · have : (0 : Int) ≤ i := Int.ofNat_nonneg i
        norm_num; omega
      · have h2 : (((good ++ det :: rest).length : Int) + 1) < 2 ^ 31 := by exact_mod_cast hN
        have h3 : (i : Int) + (n' + 1 : Nat) = ((good ++ det :: rest).length : Int) := by
          exact_mod_cast hn
        push_cast at h3
        have : (0 : Int) ≤ n' := Int.ofNat_nonneg n'
        omega
    rw [extract_loop]
    simp only [hbox, hlabel, hwrap]
    obtain ⟨id, he⟩ := ih (i + 1) n' _ (by omega) (by omega)
    refine ⟨id, ?_⟩
    rw [he]
    simp [hdrop, labels_after, artifacts_from, artifact_of, List.append_assoc]

theorem digitChar_value (k : Nat) (hk : k < 10) : (Nat.digitChar k).toNat - 48 = k := by
  interval_cases k <;> rfl

theorem digitChar_ne_dash (k : Nat) (hk : k < 10) : Nat.digitChar k ≠ '-' := by
  interval_cases k <;> decide

theorem toDigitsCore_value (fuel : Nat) :
    ∀ (n : Nat) (ds : List Char), n < fuel →
      (Nat.toDigitsCore 10 fuel n ds).foldl (fun acc c => acc * 10 + (c.toNat - 48)) 0 =
        ds.foldl (fun acc c => acc * 10 + (c.toNat - 48)) n := by
  induction fuel with
  | zero => intro n ds h; omega
  | succ fuel ih =>
    intro n ds h
    have hd := digitChar_value (n % 10) (Nat.mod_lt _ (by norm_num))
    simp only [Nat.toDigitsCore]
    by_cases h0 : n / 10 = 0
    · simp only [h0, if_true, List.foldl_cons, hd]
      congr 1
      omega
    · simp only [h0, if_false]
      rw [ih (n / 10) _ (by omega)]
      simp only [List.foldl_cons, hd]
      congr 1
      omega

theorem toDigitsCore_no_dash (fuel : Nat) :
    ∀ (n : Nat) (ds : List Char), '-' ∉ ds → '-' ∉ Nat.toDigitsCore 10 fuel n ds := by
  induction fuel with
  | zero => intro n ds h; simpa [Nat.toDigitsCore] using h
  | succ fuel ih =>
    intro n ds h
    have hd := digitChar_ne_dash (n % 10) (Nat.mod_lt _ (by norm_num))
    have hcons : '-' ∉ Nat.digitChar (n % 10) :: ds := by
      simp only [List.mem_cons, not_or]
      exact ⟨Ne.symm hd, h⟩
    simp only [Nat.toDigitsCore]
    by_cases h0 : n / 10 = 0
    · simpa only [h0, if_true] using hcons
    · simp only [h0, if_false]
      exact ih _ _ hcons

/-- Reading the decimal string of a natural number gives the number back. -/
theorem repr_value (n : Nat) :
    (Nat.repr n).data.foldl (fun acc c => acc * 10 + (c.toNat - 48)) 0 = n := by
  simp only [Nat.repr, Nat.toDigits, List.asString]
  rw [toDigitsCore_value (n + 1) n [] (by omega)]
  rfl

theorem repr_no_dash (n : Nat) : '-' ∉ (Nat.repr n).data := by
  simp only [Nat.repr, Nat.toDigits, List.asString]
  exact toDigitsCore_no_dash _ _ _ (by simp)

theorem toString_nat_cast (n : Nat) : toString (n : Int) = Nat.repr n := rfl

theorem split_at_last (x : Char) :
    ∀ (l1 l2 r1 r2 : List Char), x ∉ l1 → x ∉ l2 → l1 ++ x :: r1 = l2 ++ x :: r2 → l1 = l2 := by
  intro l1
  induction l1 with
  | nil =>
    intro l2 r1 r2 _ h2 h
    cases l2 with
    | nil => rfl
    | cons y l2 =>
      simp only [List.nil_append, List.cons_append, List.cons.injEq] at h
      exact absurd (by simp [h.1]) h2
  | cons y l1 ih =>
    intro l2 r1 r2 h1 h2 h
    cases l2 with
    | nil =>
      simp only [List.nil_append, List.cons_append, List.cons.injEq] at h
      exact absurd (by simp [h.1]) h1
    | cons z l2 =>
      simp only [List.cons_append, List.cons.injEq] at h
      rw [h.1, ih l2 r1 r2 (fun hx => h1 (by simp [hx])) (fun hx => h2 (by simp [hx])) h.2]

theorem digits_after_dash_inj (a1 a2 d1 d2 s : List Char) (h1 : '-' ∉ d1) (h2 : '-' ∉ d2)
    (h : a1 ++ ['-'] ++ d1 ++ s = a2 ++ ['-'] ++ d2 ++ s) : d1 = d2 := by
  have e2 := List.append_cancel_right h
  have e3 := congrArg List.reverse e2
  rw [@List.reverse_append _ (a1 ++ ['-']) d1, @List.reverse_append _ (a2 ++ ['-']) d2,
    @List.reverse_append _ a1 ['-'], @List.reverse_append _ a2 ['-'],
    List.reverse_singleton, List.singleton_append, List.singleton_append] at e3
  have e4 := split_at_last '-' _ _ _ _ (List.mem_reverse.not.2 h1) (List.mem_reverse.not.2 h2) e3
  exact List.reverse_injective e4

/-- Two output names with different indices differ, whatever the labels. -/
theorem out_pcd_name_index_inj (o l1 l2 f : String) (j k : Nat)
    (h : o ++ "/" ++ out_pcd_name l1 f (j : Int) = o ++ "/" ++ out_pcd_name l2 f (k : Int)) :
    j = k := by
  have hd := congrArg String.data h
  simp only [out_pcd_name, String.data_append, toString_nat_cast] at hd
  have hx := List.append_cancel_left hd
  have hjk := digits_after_dash_inj _ _ _ _ _ (repr_no_dash j) (repr_no_dash k) hx
  have h1 := repr_value j
  rw [hjk, repr_value k] at h1
  exact h1.symm

theorem artifacts_from_paths (m : CMath) (o : String) (c : List PointXYZ) (f : String)
    (ds : List Detection) :
    ∀ (k : Nat) (p : String), p ∈ (artifacts_from m o c f (k : Int) ds).map PcdFile.path →
      ∃ (l : String) (j : Nat), k ≤ j ∧ p = o ++ "/" ++ out_pcd_name l f (j : Int) := by
  induction ds with
  | nil => intro k p hp; simp [artifacts_from] at hp
  | cons d ds ih =>
    intro k p hp
    have hk : ((k : Int) + 1) = ((k + 1 : Nat) : Int) := by push_cast; ring
    simp only [artifacts_from, List.map_cons, List.mem_cons, hk] at hp
    rcases hp with hp | hp
    · exact ⟨d.label, k, le_refl _, hp⟩
    · obtain ⟨l, j, hj, hpj⟩ := ih (k + 1) p hp
      exact ⟨l, j, by omega, hpj⟩

/-- The artifacts written for one frame have pairwise different paths. -/
theorem artifacts_from_nodup (m : CMath) (o : String) (c : List PointXYZ) (f : String)
    (ds : List Detection) :
    ∀ k : Nat, ((artifacts_from m o c f (k : Int) ds).map PcdFile.path).Nodup := by
  induction ds with
  | nil => intro k; simp [artifacts_from]
  | cons d ds ih =>
    intro k
    have hk : ((k : Int) + 1) = ((k + 1 : Nat) : Int) := by push_cast; ring
    simp only [artifacts_from, List.map_cons, hk, List.nodup_cons]
    refine ⟨?_, ih (k + 1)⟩
    intro hmem
    obtain ⟨l, j, hj, hpj⟩ := artifacts_from_paths m o c f ds (k + 1) _ hmem
    have := out_pcd_name_index_inj o d.label l f k j hpj
    omega

/-! ## The claims -/

/-- C1 (where the code departs). For every point cloud and every detections record holding N
well-formed detections, `extract_objects_from_pcd` writes exactly N artifacts, with N
different paths, one per detection in detection order, the k-th artifact (k = 1..N) carrying
the index k in its name, whatever was processed before; but the call does not complete:
having written them, control reaches the end of the function, which is declared `bool` and
has no `return` statement, and the behaviour is undefined from there on. -/
theorem C1_one_artifact_per_detection (m : CMath) (w : World) (in_cloud : List PointXYZ)
    (members : List (String × Json)) (dets : List Json) (ds : List Detection) (pcd_fn : String)
    (hkey : Json.lookup "detections" members = some (.arr dets))
    (hwf : dets.map Detection.parse = ds.map Except.ok) (hN : dets.length + 1 < 2 ^ 31) :
    ∃ w' new, extract_objects_from_pcd m w in_cloud (.obj members) pcd_fn =
        .undefined_behaviour w' ∧
      w'.saved = w.saved ++ new ∧ new.length = dets.length ∧
      (new.map PcdFile.path).Nodup ∧
      ∀ k : Nat, 1 ≤ k → k ≤ dets.length →
        ∃ d f, ds[k - 1]? = some d ∧ new[k - 1]? = some f ∧
          f.path = w.self.out_folder_pcd_ ++ "/" ++
            (d.label ++ "-" ++ substr pcd_fn 0 (size_t_sub pcd_fn.length 4) ++ "-" ++
              toString (k : Int) ++ ".pcd") ∧
          f.cloud = (crop_box_of m d).filter m in_cloud := by
  have hlen := well_formed_length dets ds hwf
  refine ⟨_, _,
    extract_objects_from_pcd_well_formed m w in_cloud members dets ds pcd_fn hkey hwf hN,
    rfl, ?_, ?_, ?_⟩
  · rw [artifacts_from_length, hlen]
  · have h := artifacts_from_nodup m w.self.out_folder_pcd_ in_cloud pcd_fn ds 1
    simpa using h
  · intro k hk1 hk2
    have hk : k - 1 < ds.length := by omega
    refine ⟨ds[k - 1], _, List.getElem?_eq_getElem hk,
      artifacts_from_get m _ in_cloud pcd_fn ds 1 (k - 1) _ (List.getElem?_eq_getElem hk),
      ?_, rfl⟩
    have hcast : (1 : Int) + ((k - 1 : Nat) : Int) = (k : Int) := by omega
    simp only [artifact_of, out_pcd_name, hcast]

/-- C1 at a concrete input: the sample cloud and a record holding a car and a bus. -/
theorem C1_witness :
    ∃ w' new, extract_objects_from_pcd quarter_turn_math sample_world sample_cloud
        (.obj (detections_record [sample_car, sample_bus])) "frame1.pcd" =
        .undefined_behaviour w' ∧
      w'.saved = sample_world.saved ++ new ∧
      new.length = ([sample_car, sample_bus].map detection_json).length ∧
      (new.map PcdFile.path).Nodup ∧
      ∀ k : Nat, 1 ≤ k → k ≤ ([sample_car, sample_bus].map detection_json).length →
        ∃ d f, [sample_car, sample_bus][k - 1]? = some d ∧ new[k - 1]? = some f ∧
          f.path = sample_world.self.out_folder_pcd_ ++ "/" ++
            (d.label ++ "-" ++ substr "frame1.pcd" 0 (size_t_sub "frame1.pcd".length 4) ++ "-" ++
              toString (k : Int) ++ ".pcd") ∧
          f.cloud = (crop_box_of quarter_turn_math d).filter quarter_turn_math sample_cloud :=
  C1_one_artifact_per_detection quarter_turn_math sample_world sample_cloud
    (detections_record [sample_car, sample_bus]) ([sample_car, sample_bus].map detection_json)
    [sample_car, sample_bus] "frame1.pcd" rfl (parse_detection_json_map _) (by simp)

/-- C2. For every well-formed detection with size (sx, sy, sz), the crop box configured by
`extract_objects_from_pcd` has minimum (-sx/2, -sy/2, 0, 0) and maximum (sx/2, sy/2, sz, 0)
and is translated to the detection's position: x and y are centred, the z-range is
[0, sz]. Hence a point of the cloud at local z = -0.001, or anywhere below 0, is left out,
and one within the x/y bounds at local z = sz - e with 0 < e ≤ sz is selected. -/
theorem C2_crop_bounds (m : CMath) (dets : List Json) (i : Nat) (det : Json) (d : Detection)
    (in_cloud : List PointXYZ) (hi : dets[i]? = some det) (hd : Detection.parse det = .ok d) :
    ∃ box, read_crop_box m (.arr dets) i = .ok box ∧
      box.min_pt_ = ⟨-d.size.x / 2, -d.size.y / 2, 0, 0⟩ ∧
      box.max_pt_ = ⟨d.size.x / 2, d.size.y / 2, d.size.z, 0⟩ ∧
      box.translation_ = d.position ∧
      (∀ p ∈ in_cloud, (box.local_pt m p).z = -1 / 1000 → p ∉ box.filter m in_cloud) ∧
      (∀ p ∈ in_cloud, (box.local_pt m p).z < 0 → p ∉ box.filter m in_cloud) ∧
      (∀ p ∈ in_cloud, ∀ e : ℚ, 0 < e → e ≤ d.size.z →
        -d.size.x / 2 ≤ (box.local_pt m p).x → (box.local_pt m p).x ≤ d.size.x / 2 →
        -d.size.y / 2 ≤ (box.local_pt m p).y → (box.local_pt m p).y ≤ d.size.y / 2 →
        (box.local_pt m p).z = d.size.z - e → p ∈ box.filter m in_cloud) := by
  refine ⟨crop_box_of m d, (read_of_parse m dets i det d hi hd).1, rfl, rfl, rfl, ?_, ?_, ?_⟩
  · intro p _ hz hmem
    have h := ((mem_filter_iff m _ in_cloud p).1 hmem).2
    rw [outside_eq_false_iff] at h
    have h5 : (0 : ℚ) ≤ ((crop_box_of m d).local_pt m p).z := h.2.2.2.2.1
    rw [hz] at h5
    norm_num at h5
  · intro p _ hz hmem
    have h := ((mem_filter_iff m _ in_cloud p).1 hmem).2
    rw [outside_eq_false_iff] at h
    have h5 : (0 : ℚ) ≤ ((crop_box_of m d).local_pt m p).z := h.2.2.2.2.1
    exact absurd hz (not_lt.2 h5)
  · intro p hp e he1 he2 hx1 hx2 hy1 hy2 hz
    rw [mem_filter_iff, outside_eq_false_iff]
    refine ⟨hp, hx1, hx2, hy1, hy2, ?_, ?_⟩
    · show (0 : ℚ) ≤ ((crop_box_of m d).local_pt m p).z
      rw [hz]; linarith
    · show ((crop_box_of m d).local_pt m p).z ≤ d.size.z
      rw [hz]; linarith

/-- C2 at a concrete input: the car of size (2, 2, 2) and the sample cloud. -/
theorem C2_witness :
    ∃ box, read_crop_box quarter_turn_math (.arr [detection_json sample_car]) 0 = .ok box ∧
      box.min_pt_ = ⟨-sample_car.size.x / 2, -sample_car.size.y / 2, 0, 0⟩ ∧
      box.max_pt_ = ⟨sample_car.size.x / 2, sample_car.size.y / 2, sample_car.size.z, 0⟩ ∧
      box.translation_ = sample_car.position ∧
      (∀ p ∈ sample_cloud, (box.local_pt quarter_turn_math p).z = -1 / 1000 →
        p ∉ box.filter quarter_turn_math sample_cloud) ∧
      (∀ p ∈ sample_cloud, (box.local_pt quarter_turn_math p).z < 0 →
        p ∉ box.filter quarter_turn_math sample_cloud) ∧
      (∀ p ∈ sample_cloud, ∀ e : ℚ, 0 < e → e ≤ sample_car.size.z →
        -sample_car.size.x / 2 ≤ (box.local_pt quarter_turn_math p).x →
        (box.local_pt quarter_turn_math p).x ≤ sample_car.size.x / 2 →
        -sample_car.size.y / 2 ≤ (box.local_pt quarter_turn_math p).y →
        (box.local_pt quarter_turn_math p).y ≤ sample_car.size.y / 2 →
        (box.local_pt quarter_turn_math p).z = sample_car.size.z - e →
        p ∈ box.filter quarter_turn_math sample_cloud) :=
  C2_crop_bounds quarter_turn_math [detection_json sample_car] 0 (detection_json sample_car)
    sample_car sample_cloud rfl (parse_detection_json sample_car)

/-- C5 (as stated, refuted). For the frame `frame1.pcd` and one detection labelled `car`
the artifact is named `car-frame1-1.pcd`: the frame's stem is kept whole, its final
character is not dropped as the claim says. -/
theorem C5_counterexample :
    ∃ w', extract_objects_from_pcd quarter_turn_math sample_world sample_cloud
        (.obj (detections_record [sample_car])) "frame1.pcd" = .undefined_behaviour w' ∧
      w'.saved.map PcdFile.path = ["out/car-frame1-1.pcd"] ∧
      "out/car-frame1-1.pcd" ≠ "out" ++ "/" ++ claimed_out_pcd_name "car" "frame1" 1 := by
  refine ⟨_, extract_objects_from_pcd_well_formed quarter_turn_math sample_world sample_cloud
    (detections_record [sample_car]) ([sample_car].map detection_json) [sample_car] "frame1.pcd"
    rfl (parse_detection_json_map _) (by simp), ?_, by decide⟩
  simp only [artifacts_from, artifact_of, List.append_nil, List.map, sample_world, List.nil_append]
  decide

/-- C5 (amended). For every frame file name `stem ++ ".pcd"`, every well-formed detection
with label L and 1-based index k in the frame, the artifact written by
`extract_objects_from_pcd` is named `L-stem-k.pcd`: the four characters dropped from the
file name are its extension `.pcd`, so the stem is kept whole. (The artifacts are written
before control reaches the end of the function, which has no `return` statement.) -/
theorem C5_artifact_name (m : CMath) (w : World) (in_cloud : List PointXYZ)
    (members : List (String × Json)) (dets : List Json) (ds : List Detection) (stem : String)
    (hkey : Json.lookup "detections" members = some (.arr dets))
    (hwf : dets.map Detection.parse = ds.map Except.ok) (hN : dets.length + 1 < 2 ^ 31)
    (hstem : (stem ++ ".pcd").length < 2 ^ 64) :
    ∃ w' new, extract_objects_from_pcd m w in_cloud (.obj members) (stem ++ ".pcd") =
        .undefined_behaviour w' ∧
      w'.saved = w.saved ++ new ∧ new.length = dets.length ∧
      ∀ k : Nat, 1 ≤ k → k ≤ dets.length →
        ∃ d f, ds[k - 1]? = some d ∧ new[k - 1]? = some f ∧
          f.path = w.self.out_folder_pcd_ ++ "/" ++
            (d.label ++ "-" ++ stem ++ "-" ++ toString (k : Int) ++ ".pcd") := by
  have hlen := well_formed_length dets ds hwf
  refine ⟨_, _, extract_objects_from_pcd_well_formed m w in_cloud members dets ds _ hkey hwf hN,
    rfl, by rw [artifacts_from_length, hlen], ?_⟩
  intro k hk1 hk2
  have hk : k - 1 < ds.length := by omega
  refine ⟨ds[k - 1], _, List.getElem?_eq_getElem hk,
    artifacts_from_get m _ in_cloud _ ds 1 (k - 1) _ (List.getElem?_eq_getElem hk), ?_⟩
  have hcast : (1 : Int) + ((k - 1 : Nat) : Int) = (k : Int) := by omega
  simp only [artifact_of, out_pcd_name, hcast, substr_strip_pcd stem hstem]

/-- C5 (amended) at a concrete input: the frame `frame1.pcd` with a car and a bus. -/
theorem C5_artifact_name_witness :
    ∃ w' new, extract_objects_from_pcd quarter_turn_math sample_world sample_cloud
        (.obj (detections_record [sample_car, sample_bus])) ("frame1" ++ ".pcd") =
        .undefined_behaviour w' ∧
      w'.saved = sample_world.saved ++ new ∧
      new.length = ([sample_car, sample_bus].map detection_json).length ∧
      ∀ k : Nat, 1 ≤ k → k ≤ ([sample_car, sample_bus].map detection_json).length →
        ∃ d f, [sample_car, sample_bus][k - 1]? = some d ∧ new[k - 1]? = some f ∧
          f.path = sample_world.self.out_folder_pcd_ ++ "/" ++
            (d.label ++ "-" ++ "frame1" ++ "-" ++ toString (k : Int) ++ ".pcd") :=
  C5_artifact_name quarter_turn_math sample_world sample_cloud
    (detections_record [sample_car, sample_bus]) ([sample_car, sample_bus].map detection_json)
    [sample_car, sample_bus] "frame1" rfl (parse_detection_json_map _) (by simp) (by decide)

/-- C6 (where it fails). Whenever some point-cloud file lacks its detections file, the
constructor does not get to the state the claim describes: with `f` the first such file in
iteration order, it counts the files before `f` in `common_fn_`, erases `f` from
`pcd_names_set_` while the loop iterator refers to it, sets `not_common_fn_` to 1, and then
steps the invalidated iterator, which is undefined behaviour; the files after `f` have not
been looked at. -/
theorem C6_ctor_erases_under_iterator (a b c : String) (visited : List String) (f : String)
    (rest : List String) (D : List String)
    (hvisited : ∀ g ∈ visited, dets3d_fn_of g ∈ D) (hf : dets3d_fn_of f ∉ D)
    (hlen : (visited ++ f :: rest).length < 2 ^ 31) :
    ExtractPointCloudObjects.ctor a b c (visited ++ f :: rest) D =
      .undefined_behaviour
        { in_folder_pcd_ := a, in_folder_dets3d_ := b, out_folder_pcd_ := c,
          pcd_names_set_ := (visited ++ f :: rest).erase f, dets3d_names_set_ := D,
          common_fn_ := (visited.length : Int), not_common_fn_ := 1 } := by
  have key : ∀ (vis : List String) (self : ExtractPointCloudObjects),
      (∀ g ∈ vis, dets3d_fn_of g ∈ self.dets3d_names_set_) →
      dets3d_fn_of f ∉ self.dets3d_names_set_ → 0 ≤ self.common_fn_ →
      self.common_fn_ + (vis.length : Int) < 2 ^ 31 → self.not_common_fn_ = 0 →
      ctor_loop self (vis ++ f :: rest) =
        .undefined_behaviour
          { self with
            pcd_names_set_ := self.pcd_names_set_.erase f
            common_fn_ := self.common_fn_ + (vis.length : Int)
            not_common_fn_ := 1 } := by
    intro vis
    induction vis with
    | nil =>
      intro self _ hf' _ _ hz
      simp [ctor_loop, hf', hz, wrap_int]
    | cons g vis ih =>
      intro self hall hf' h0 hlt hz
      have hg : dets3d_fn_of g ∈ self.dets3d_names_set_ := hall g (by simp)
      simp only [List.length_cons] at hlt
      push_cast at hlt
      have hv0 : (0 : Int) ≤ vis.length := Int.ofNat_nonneg _
      have hw : wrap_int (self.common_fn_ + 1) = self.common_fn_ + 1 :=
        wrap_int_of_range _ (by norm_num; omega) (by omega)
      have hstep : ctor_loop self ((g :: vis) ++ f :: rest) =
          ctor_loop { self with common_fn_ := self.common_fn_ + 1 } (vis ++ f :: rest) := by
        rw [List.cons_append, ctor_loop]
        simp only [hg, not_true_eq_false, if_false, hw]
      rw [hstep, ih { self with common_fn_ := self.common_fn_ + 1 }
        (fun x hx => hall x (by simp [hx])) hf' (by simp only; omega) (by simp only; omega) hz]
      simp only [List.length_cons]
      push_cast
      congr 2
      ring
  have hl : ((visited.length : Int)) < 2 ^ 31 := by
    have : visited.length < 2 ^ 31 := by
      simp only [List.length_append] at hlen
      omega
    exact_mod_cast this
  unfold ExtractPointCloudObjects.ctor
  rw [key visited _ hvisited hf (by simp) (by simpa using hl) rfl]
  simp

/-- C6 at the failing input: the point-cloud files `frame2.pcd`, `frame1.pcd` (iterated in
this order) and the detections file `frame1.json`. The undefined step is reached with
`common_fn_` still 0 and `frame1.pcd` not yet looked at. -/
theorem C6_ctor_erases_under_iterator_witness :
    ExtractPointCloudObjects.ctor "pcd" "dets3d" "out" ([] ++ "frame2.pcd" :: ["frame1.pcd"])
        ["frame1.json"] =
      .undefined_behaviour
        { in_folder_pcd_ := "pcd", in_folder_dets3d_ := "dets3d", out_folder_pcd_ := "out",
          pcd_names_set_ := ([] ++ "frame2.pcd" :: ["frame1.pcd"]).erase "frame2.pcd",
          dets3d_names_set_ := ["frame1.json"],
          common_fn_ := (([] : List String).length : Int), not_common_fn_ := 1 } :=
  C6_ctor_erases_under_iterator "pcd" "dets3d" "out" [] "frame2.pcd" ["frame1.pcd"]
    ["frame1.json"] (by simp) (by decide) (by decide)

/-- C7 (as stated, refuted). With `frame1.pcd` and the detections files `frame1.json`,
`frame3.json`, the frame `frame3` is present in exactly one directory, yet after
construction `not_common_fn_` is 0: a detections file without a point cloud is not counted
as unmatched. -/
theorem C7_counterexample :
    ∃ st, ExtractPointCloudObjects.ctor "pcd" "dets3d" "out" ["frame1.pcd"]
        ["frame1.json", "frame3.json"] = .returned st ∧
      st.not_common_fn_ = 0 ∧
      frames_in_exactly_one ["frame1.pcd"] ["frame1.json", "frame3.json"] = 1 ∧
      st.not_common_fn_ ≠ (frames_in_exactly_one ["frame1.pcd"] ["frame1.json", "frame3.json"] : Int) :=
  ⟨_, rfl, by decide, by decide, by decide⟩

/-- C7 (amended). For every pair of directory listings on which the constructor's loop runs
to its end: the frames kept for processing are exactly the point-cloud files whose
detections file exists, `common_fn_` is their number, no frame whose detections file has no
point cloud is among them, and `not_common_fn_` is the number of point-cloud files without a
detections file; detections files without a point cloud are not counted, so the number of
frames present in exactly one directory exceeds `not_common_fn_` by their number. -/
theorem C7_unmatched_count (a b c : String) (P D : List String) (st : ExtractPointCloudObjects)
    (hP : P.length < 2 ^ 31)
    (h : ExtractPointCloudObjects.ctor a b c P D = .returned st) :
    st.pcd_names_set_ = P.filter (fun f => decide (dets3d_fn_of f ∈ D)) ∧
      st.common_fn_ = ((P.filter (fun f => decide (dets3d_fn_of f ∈ D))).length : Int) ∧
      st.not_common_fn_ = ((P.filter (fun f => decide (dets3d_fn_of f ∉ D))).length : Int) ∧
      (frames_in_exactly_one P D : Int) = st.not_common_fn_ +
        ((D.filter (fun d => decide (∀ f ∈ P, dets3d_fn_of f ≠ d))).length : Int) ∧
      (∀ d ∈ D, (∀ f ∈ P, dets3d_fn_of f ≠ d) → ∀ f ∈ st.pcd_names_set_, dets3d_fn_of f ≠ d) := by
  have hP' : ((P.length : Int)) < 2 ^ 31 := by exact_mod_cast hP
  obtain ⟨hall, hst⟩ := ctor_loop_returned P _ st h (by simp) (by simpa using hP')
  have hyes : P.filter (fun f => decide (dets3d_fn_of f ∈ D)) = P := by
    rw [List.filter_eq_self]
    intro f hf
    simpa using hall f hf
  have hno : P.filter (fun f => decide (dets3d_fn_of f ∉ D)) = [] := by
    rw [List.filter_eq_nil_iff]
    intro f hf
    simpa using hall f hf
  have hone : (frames_in_exactly_one P D : Int) =
      ((D.filter (fun d => decide (∀ f ∈ P, dets3d_fn_of f ≠ d))).length : Int) := by
    simp only [frames_in_exactly_one, hno, List.length_nil, Nat.zero_add]
  rw [hyes, hno, hst, hone]
  refine ⟨rfl, by simp, by simp, by simp, ?_⟩
  intro d _ hd f hf
  exact hd f hf

/-- C7 (amended) at a concrete input: `frame1.pcd` with `frame1.json` and `frame3.json`. -/
theorem C7_unmatched_count_witness :
    (⟨"pcd", "dets3d", "out", ["frame1.pcd"], ["frame1.json", "frame3.json"], 1, 0, []⟩ :
        ExtractPointCloudObjects).pcd_names_set_ =
        ["frame1.pcd"].filter (fun f => decide (dets3d_fn_of f ∈ ["frame1.json", "frame3.json"])) ∧
      (⟨"pcd", "dets3d", "out", ["frame1.pcd"], ["frame1.json", "frame3.json"], 1, 0, []⟩ :
        ExtractPointCloudObjects).common_fn_ =
        ((["frame1.pcd"].filter
          (fun f => decide (dets3d_fn_of f ∈ ["frame1.json", "frame3.json"]))).length : Int) ∧
      (⟨"pcd", "dets3d", "out", ["frame1.pcd"], ["frame1.json", "frame3.json"], 1, 0, []⟩ :
        ExtractPointCloudObjects).not_common_fn_ =
        ((["frame1.pcd"].filter
          (fun f => decide (dets3d_fn_of f ∉ ["frame1.json", "frame3.json"]))).length : Int) ∧
      (frames_in_exactly_one ["frame1.pcd"] ["frame1.json", "frame3.json"] : Int) =
        (⟨"pcd", "dets3d", "out", ["frame1.pcd"], ["frame1.json", "frame3.json"], 1, 0, []⟩ :
          ExtractPointCloudObjects).not_common_fn_ +
        ((["frame1.json", "frame3.json"].filter
          (fun d => decide (∀ f ∈ ["frame1.pcd"], dets3d_fn_of f ≠ d))).length : Int) ∧
      (∀ d ∈ ["frame1.json", "frame3.json"], (∀ f ∈ ["frame1.pcd"], dets3d_fn_of f ≠ d) →
        ∀ f ∈ (⟨"pcd", "dets3d", "out", ["frame1.pcd"], ["frame1.json", "frame3.json"], 1, 0,
          []⟩ : ExtractPointCloudObjects).pcd_names_set_, dets3d_fn_of f ≠ d) :=
  C7_unmatched_count "pcd" "dets3d" "out" ["frame1.pcd"] ["frame1.json", "frame3.json"] _
    (by decide) rfl

/-- C8 (where the code departs). For every starting label-count map and every well-formed
frame (with the `int` counts staying in range), when `extract_objects_from_pcd` has run its
loop the count of each label L equals its previous count (0 when absent) plus the number of
detections of the frame labelled L; labels not occurring in the frame keep their count, no
count decreases, and the sum of all counts has grown by exactly the number of artifacts
written. The call then reaches the end of the function, which has no `return` statement:
the behaviour is undefined from there on, so the counts are not carried to a next frame or
to the report in a defined way. -/
theorem C8_label_counts (m : CMath) (w : World) (in_cloud : List PointXYZ)
    (members : List (String × Json)) (dets : List Json) (ds : List Detection) (pcd_fn : String)
    (hkey : Json.lookup "detections" members = some (.arr dets))
    (hwf : dets.map Detection.parse = ds.map Except.ok) (hN : dets.length + 1 < 2 ^ 31)
    (hrange : ∀ e ∈ w.self.labels_count_map_,
      -2 ^ 31 ≤ e.2 ∧ e.2 + (dets.length : Int) < 2 ^ 31) :
    ∃ w', extract_objects_from_pcd m w in_cloud (.obj members) pcd_fn =
        .undefined_behaviour w' ∧
      (∀ L, labels_count L w'.self.labels_count_map_ =
        labels_count L w.self.labels_count_map_ +
          ((ds.filter (fun d => d.label = L)).length : Int)) ∧
      (∀ L, (∀ d ∈ ds, d.label ≠ L) →
        labels_count L w'.self.labels_count_map_ = labels_count L w.self.labels_count_map_) ∧
      (∀ L, labels_count L w.self.labels_count_map_ ≤ labels_count L w'.self.labels_count_map_) ∧
      (w'.self.labels_count_map_.map Prod.snd).sum =
        (w.self.labels_count_map_.map Prod.snd).sum +
          ((w'.saved.length : Int) - (w.saved.length : Int)) := by
  have hlen := well_formed_length dets ds hwf
  obtain ⟨hc, hs⟩ := labels_after_spec ds w.self.labels_count_map_ (by omega)
    (by rw [hlen]; exact hrange)
  refine ⟨_, extract_objects_from_pcd_well_formed m w in_cloud members dets ds pcd_fn hkey hwf hN,
    hc, ?_, ?_, ?_⟩
  · intro L hL
    have hfil : ds.filter (fun d => decide (d.label = L)) = [] := by
      simp [List.filter_eq_nil_iff]
      exact hL
    simp only [hc L, hfil]
    simp
  · intro L
    simp only [hc L]
    have : (0 : Int) ≤ ((ds.filter (fun d => decide (d.label = L))).length : Int) :=
      Int.ofNat_nonneg _
    omega
  · simp only [hs, List.length_append, artifacts_from_length]
    push_cast
    ring

/-- C8 at a concrete input: an empty count map and a frame holding one car. -/
theorem C8_witness :
    ∃ w', extract_objects_from_pcd quarter_turn_math sample_world sample_cloud
        (.obj (detections_record [sample_car])) "frame1.pcd" = .undefined_behaviour w' ∧
      (∀ L, labels_count L w'.self.labels_count_map_ =
        labels_count L sample_world.self.labels_count_map_ +
          (([sample_car].filter (fun d => d.label = L)).length : Int)) ∧
      (∀ L, (∀ d ∈ [sample_car], d.label ≠ L) →
        labels_count L w'.self.labels_count_map_ =
          labels_count L sample_world.self.labels_count_map_) ∧
      (∀ L, labels_count L sample_world.self.labels_count_map_ ≤
        labels_count L w'.self.labels_count_map_) ∧
      (w'.self.labels_count_map_.map Prod.snd).sum =
        (sample_world.self.labels_count_map_.map Prod.snd).sum +
          ((w'.saved.length : Int) - (sample_world.saved.length : Int)) :=
  C8_label_counts quarter_turn_math sample_world sample_cloud (detections_record [sample_car])
    ([sample_car].map detection_json) [sample_car] "frame1.pcd" rfl
    (parse_detection_json_map _) (by simp) (by simp [sample_world])

/-- C9 (as stated, refuted). In a run over `frame1.pcd` then `frame2.pcd`, where the
detections of `frame1` hold a record without `label` and those of `frame2` are well-formed,
`extract_objects_from_all_pcds` is left by the exception `type_error` 302 with nothing
written and nothing counted: `frame1` is not skipped, and `frame2` is not processed. -/
theorem C9_counterexample :
    missing_required_field sample_no_label = true ∧
      sample_files.parse_json "dets3d/frame2.json" =
        .ok (.obj (detections_record [sample_car])) ∧
      Detection.parse (detection_json sample_car) = .ok sample_car ∧
      extract_objects_from_all_pcds quarter_turn_math sample_files
          (sample_run ["frame1.pcd", "frame2.pcd"]) =
        .threw (.type_error 302) (sample_run ["frame1.pcd", "frame2.pcd"]) ∧
      (sample_run ["frame1.pcd", "frame2.pcd"]).saved = [] ∧
      (sample_run ["frame1.pcd", "frame2.pcd"]).self.labels_count_map_ = [] :=
  ⟨rfl, rfl, rfl, rfl, rfl, rfl⟩

/-- C9 (amended). When the detections record of the frame being processed holds, after
well-formed detections, a record in which a required field (label, position, orientation or
size) is absent, extraction for that frame is left by a `type_error` of the JSON library, and
`extract_objects_from_all_pcds` does not catch it: the whole call is left by the same
exception. What stays of the frame is the work done before the exception: the artifacts and
counts of the detections preceding the malformed one. No later detection and no later frame
is processed. -/
theorem C9_exception_ends_run (m : CMath) (files : InputFiles) (w : World)
    (bad : String) (after : List String)
    (members : List (String × Json)) (good : List Json) (det : Json) (rest : List Json)
    (ds : List Detection)
    (hset : w.self.pcd_names_set_ = bad :: after)
    (hjson : files.parse_json (w.self.in_folder_dets3d_ ++ "/" ++ dets3d_fn_of bad) =
      .ok (.obj members))
    (hkey : Json.lookup "detections" members = some (.arr (good ++ det :: rest)))
    (hgood : good.map Detection.parse = ds.map Except.ok)
    (hmissing : missing_required_field det = true)
    (hN : (good ++ det :: rest).length + 1 < 2 ^ 31) :
    ∃ id,
      extract_objects_from_pcd m w (files.loadPCDFile (w.self.in_folder_pcd_ ++ "/" ++ bad))
          (.obj members) bad =
        .threw (.type_error id)
          { self := { w.self with
                      labels_count_map_ := labels_after ds w.self.labels_count_map_ }
            saved := w.saved ++
              artifacts_from m w.self.out_folder_pcd_
                (files.loadPCDFile (w.self.in_folder_pcd_ ++ "/" ++ bad)) bad 1 ds } ∧
      extract_objects_from_all_pcds m files w =
        .threw (.type_error id)
          { self := { w.self with
                      labels_count_map_ := labels_after ds w.self.labels_count_map_ }
            saved := w.saved ++
              artifacts_from m w.self.out_folder_pcd_
                (files.loadPCDFile (w.self.in_folder_pcd_ ++ "/" ++ bad)) bad 1 ds } := by
  have hnum : (wrap_int ((Json.arr (good ++ det :: rest)).size : Int)).toNat =
      (good ++ det :: rest).length := by
    have h2 : (((good ++ det :: rest).length : Int) + 1) < 2 ^ 31 := by exact_mod_cast hN
    have h0 : (0 : Int) ≤ (good ++ det :: rest).length := Int.ofNat_nonneg _
    rw [Json.size, wrap_int_of_range _ (by norm_num; omega) (by omega)]
    exact Int.toNat_ofNat _
  obtain ⟨id, he⟩ := extract_loop_malformed m
    (files.loadPCDFile (w.self.in_folder_pcd_ ++ "/" ++ bad)) good det rest bad ds hgood
    (parse_error_of_missing det hmissing) hN good.length 0 (good ++ det :: rest).length w
    (by simp) (by simp)
  rw [Nat.cast_zero, zero_add, List.drop_zero] at he
  have hx : extract_objects_from_pcd m w
      (files.loadPCDFile (w.self.in_folder_pcd_ ++ "/" ++ bad)) (.obj members) bad =
      .threw (.type_error id)
        { self := { w.self with
                    labels_count_map_ := labels_after ds w.self.labels_count_map_ }
          saved := w.saved ++
            artifacts_from m w.self.out_folder_pcd_
              (files.loadPCDFile (w.self.in_folder_pcd_ ++ "/" ++ bad)) bad 1 ds } := by
    simp only [extract_objects_from_pcd, hkey, hnum]
    rw [he]
    rfl
  refine ⟨id, hx, ?_⟩
  rw [extract_objects_from_all_pcds, hset]
  simp only [all_pcds_loop, hjson, hx]

/-- C9 (amended) at a concrete input: the run over `frame3.pcd`, whose record holds a car
and then a record without label, and `frame2.pcd`; the car of `frame3` is written and
counted, then the exception ends the run. -/
theorem C9_exception_ends_run_witness :
    ∃ id,
      extract_objects_from_pcd quarter_turn_math (sample_run ["frame3.pcd", "frame2.pcd"])
          (sample_files.loadPCDFile
            ((sample_run ["frame3.pcd", "frame2.pcd"]).self.in_folder_pcd_ ++ "/" ++
              "frame3.pcd"))
          (.obj [("detections", .arr ([detection_json sample_car] ++ sample_no_label :: []))])
          "frame3.pcd" =
        .threw (.type_error id)
          { self := { (sample_run ["frame3.pcd", "frame2.pcd"]).self with
                      labels_count_map_ :=
                        labels_after [sample_car]
                          (sample_run ["frame3.pcd", "frame2.pcd"]).self.labels_count_map_ }
            saved := (sample_run ["frame3.pcd", "frame2.pcd"]).saved ++
              artifacts_from quarter_turn_math
                (sample_run ["frame3.pcd", "frame2.pcd"]).self.out_folder_pcd_
                (sample_files.loadPCDFile
                  ((sample_run ["frame3.pcd", "frame2.pcd"]).self.in_folder_pcd_ ++ "/" ++
                    "frame3.pcd")) "frame3.pcd" 1 [sample_car] } ∧
      extract_objects_from_all_pcds quarter_turn_math sample_files
          (sample_run ["frame3.pcd", "frame2.pcd"]) =
        .threw (.type_error id)
          { self := { (sample_run ["frame3.pcd", "frame2.pcd"]).self with
                      labels_count_map_ :=
                        labels_after [sample_car]
                          (sample_run ["frame3.pcd", "frame2.pcd"]).self.labels_count_map_ }
            saved := (sample_run ["frame3.pcd", "frame2.pcd"]).saved ++
              artifacts_from quarter_turn_math
                (sample_run ["frame3.pcd", "frame2.pcd"]).self.out_folder_pcd_
                (sample_files.loadPCDFile
                  ((sample_run ["frame3.pcd", "frame2.pcd"]).self.in_folder_pcd_ ++ "/" ++
                    "frame3.pcd")) "frame3.pcd" 1 [sample_car] } :=
  C9_exception_ends_run quarter_turn_math sample_files (sample_run ["frame3.pcd", "frame2.pcd"])
    "frame3.pcd" ["frame2.pcd"]
    [("detections", .arr [detection_json sample_car, sample_no_label])]
    [detection_json sample_car] sample_no_label [] [sample_car] rfl rfl rfl
    (parse_detection_json_map [sample_car]) rfl (by simp)

/-- C10 (evaluated where it fails). For the detection at the origin with size (2, 2, 2) and
unit quaternion (1/2, 1/2, -1/2, 1/2), and a math library that is accurate at the quarter
turn `h` (`atan2(y, 0) = -h` for y < 0, `sin h` within a tenth of 1, `cos h` within a tenth
of 0, exact at 0): the Euler angles computed are (h, 0, h); the rotation that the crop box
builds from them is not the rotation of the quaternion; in the detection's frame (the inverse
rotation of q applied to the point minus the position) the point (-1/2, -1/2, 0) lies within
the bounds and the point (1/2, 1/2, 0) does not, and yet the artifact written for the cloud of
these two points holds (1/2, 1/2, 0) and not (-1/2, -1/2, 0). (The call then reaches the
end of the function without a `return` statement, as every call that completes its loop.) -/
theorem C10_rotation_mismatch (m : CMath) (h : ℚ) (hpos : 0 < h)
    (h1 : ∀ y : ℚ, y < 0 → m.atan2 y 0 = -h) (h2 : m.atan2 0 1 = 0) (h3 : m.sqrt 1 = 1)
    (hs1 : m.sin (-h) < 0) (hs : 9 / 10 ≤ m.sin h) (hs' : m.sin h ≤ 11 / 10)
    (hc : |m.cos h| ≤ 1 / 10) (hc0 : m.cos 0 = 1) (hs0 : m.sin 0 = 0) (w : World)
    (pcd_fn : String) :
    sample_tilted.orientation.w * sample_tilted.orientation.w +
        sample_tilted.orientation.x * sample_tilted.orientation.x +
        sample_tilted.orientation.y * sample_tilted.orientation.y +
        sample_tilted.orientation.z * sample_tilted.orientation.z = 1 ∧
      sample_tilted.orientation.toRotationMatrix.eulerAngles m 0 1 2 = ⟨h, 0, h⟩ ∧
      (getTransformation m 0 0 0 h 0 h).linear ≠ sample_tilted.orientation.toRotationMatrix ∧
      (crop_box_of m sample_tilted).outside
        (transformPoint
          ⟨-1 / 2 - sample_tilted.position.x, -1 / 2 - sample_tilted.position.y,
            0 - sample_tilted.position.z⟩
          ⟨sample_tilted.orientation.toRotationMatrix.inverse, Vec3.Zero⟩) = false ∧
      (crop_box_of m sample_tilted).outside
        (transformPoint
          ⟨1 / 2 - sample_tilted.position.x, 1 / 2 - sample_tilted.position.y,
            0 - sample_tilted.position.z⟩
          ⟨sample_tilted.orientation.toRotationMatrix.inverse, Vec3.Zero⟩) = true ∧
      extract_objects_from_pcd m w [⟨-1 / 2, -1 / 2, 0⟩, ⟨1 / 2, 1 / 2, 0⟩]
          (.obj (detections_record [sample_tilted])) pcd_fn =
        .undefined_behaviour
          { self := { w.self with
                      labels_count_map_ := labels_incr "car" w.self.labels_count_map_ }
            saved := w.saved ++
              [⟨w.self.out_folder_pcd_ ++ "/" ++ out_pcd_name "car" pcd_fn 1,
                [⟨1 / 2, 1 / 2, 0⟩]⟩] } := by
  refine ⟨by simp only [sample_tilted]; norm_num,
    tilted_euler_angles m h hpos h1 h2 h3 hs1, ?_, ?_, ?_, ?_⟩
  · rw [tilted_crop_rotation m h hc0 hs0, tilted_rotation_matrix]
    intro hmat
    have h02 : m.sin h * m.sin h = 0 := congrArg Mat3.m02 hmat
    nlinarith
  · rw [tilted_rotation_matrix]
    simp [CropBox.outside, crop_box_of, sample_tilted, transformPoint, Mat3.mulVec, Mat3.inverse,
      Mat3.det, Vec3.Zero]
    norm_num
  · rw [tilted_rotation_matrix]
    simp [CropBox.outside, crop_box_of, sample_tilted, transformPoint, Mat3.mulVec, Mat3.inverse,
      Mat3.det, Vec3.Zero]
  · rw [extract_objects_from_pcd_well_formed m w _ (detections_record [sample_tilted])
      ([sample_tilted].map detection_json) [sample_tilted] pcd_fn rfl
      (parse_detection_json_map _) (by simp)]
    simp only [artifacts_from, artifact_of,
      tilted_filter m h hpos h1 h2 h3 hs1 hs hs' hc hc0 hs0, labels_after, List.foldl]
    rfl

/-- C10 at a concrete input: the quarter-turn table as math library. -/
theorem C10_rotation_mismatch_witness :
    sample_tilted.orientation.w * sample_tilted.orientation.w +
        sample_tilted.orientation.x * sample_tilted.orientation.x +
        sample_tilted.orientation.y * sample_tilted.orientation.y +
        sample_tilted.orientation.z * sample_tilted.orientation.z = 1 ∧
      sample_tilted.orientation.toRotationMatrix.eulerAngles quarter_turn_math 0 1 2 =
        ⟨355 / 226, 0, 355 / 226⟩ ∧
      (getTransformation quarter_turn_math 0 0 0 (355 / 226) 0 (355 / 226)).linear ≠
        sample_tilted.orientation.toRotationMatrix ∧
      (crop_box_of quarter_turn_math sample_tilted).outside
        (transformPoint
          ⟨-1 / 2 - sample_tilted.position.x, -1 / 2 - sample_tilted.position.y,
            0 - sample_tilted.position.z⟩
          ⟨sample_tilted.orientation.toRotationMatrix.inverse, Vec3.Zero⟩) = false ∧
      (crop_box_of quarter_turn_math sample_tilted).outside
        (transformPoint
          ⟨1 / 2 - sample_tilted.position.x, 1 / 2 - sample_tilted.position.y,
            0 - sample_tilted.position.z⟩
          ⟨sample_tilted.orientation.toRotationMatrix.inverse, Vec3.Zero⟩) = true ∧
      extract_objects_from_pcd quarter_turn_math sample_world
          [⟨-1 / 2, -1 / 2, 0⟩, ⟨1 / 2, 1 / 2, 0⟩]
          (.obj (detections_record [sample_tilted])) "frame1.pcd" =
        .undefined_behaviour
          { self := { sample_world.self with
                      labels_count_map_ :=
                        labels_incr "car" sample_world.self.labels_count_map_ }
            saved := sample_world.saved ++
              [⟨sample_world.self.out_folder_pcd_ ++ "/" ++ out_pcd_name "car" "frame1.pcd" 1,
                [⟨1 / 2, 1 / 2, 0⟩]⟩] } :=
  C10_rotation_mismatch quarter_turn_math (355 / 226) (by norm_num)
    (by intro y hy; have hne : y ≠ 0 := ne_of_lt hy; have hnp : ¬ 0 < y := not_lt.2 hy.le
        simp [quarter_turn_math, hne, hnp])
    (by norm_num [quarter_turn_math]) (by norm_num [quarter_turn_math])
    (by norm_num [quarter_turn_math]) (by norm_num [quarter_turn_math])
    (by norm_num [quarter_turn_math]) (by norm_num [quarter_turn_math])
    (by norm_num [quarter_turn_math]) (by norm_num [quarter_turn_math]) sample_world
    "frame1.pcd"

end dataset_generation
